import Mathlib

/-!
Verification of the abootimg boot-image codec (src/abootimg.c) against its
natural-language specification.

The C program manipulates Android boot images: a fixed versioned header
(three progressively larger layouts, versions 0/1/2) followed by up to five
page-aligned payload regions (kernel, ramdisk, second stage, recovery dtbo,
dtb).  This file gives a shallow embedding of the program:

* bytes are `Nat` values (< 256 on the wire); streams are `List Nat`;
* C `unsigned` (32-bit) arithmetic is `Nat` arithmetic with explicit
  `% 2^32` where the source can overflow;
* the in-memory union of the three header structs is one Lean structure
  holding the superset of the fields;
* fallible operations return `Except`.

The struct layout itself lives in the repository's bootimg.h, which is not
part of the sources available here; its layout is modelled from the spec
(the standard Android boot image header the spec describes).
-/

set_option linter.unusedVariables false

namespace Abootimg

/-! ## Bytes, 32-bit and 64-bit little-endian words -/

/-- Serialization of a 32-bit unsigned value into four little-endian bytes,
as the bytes of a `uint32_t` struct field appear on the wire. -/
def u32le (x : Nat) : List Nat :=
  [x % 256, x / 2 ^ 8 % 256, x / 2 ^ 16 % 256, x / 2 ^ 24 % 256]

/-- Serialization of a 64-bit unsigned value into eight little-endian bytes. -/
def u64le (x : Nat) : List Nat :=
  u32le (x % 2 ^ 32) ++ u32le (x / 2 ^ 32)

/-- Sequential read of one little-endian 32-bit word from a byte stream,
returning the value and the remaining stream.  The fallback line is never
reached by callers, which check the stream length first (as fread does). -/
def rU32 : List Nat → Nat × List Nat
  | b0 :: b1 :: b2 :: b3 :: r => (b0 + 2 ^ 8 * b1 + 2 ^ 16 * b2 + 2 ^ 24 * b3, r)
  | _ => (0, [])

/-- Sequential read of one little-endian 64-bit word from a byte stream. -/
def rU64 (bs : List Nat) : Nat × List Nat :=
  let (lo, r) := rU32 bs
  let (hi, r') := rU32 r
  (lo + 2 ^ 32 * hi, r')

/-- Sequential read of a fixed-size byte array field. -/
def rBytes (n : Nat) (bs : List Nat) : List Nat × List Nat :=
  (bs.take n, bs.drop n)

@[simp] theorem u32le_length (x : Nat) : (u32le x).length = 4 := rfl

@[simp] theorem u64le_length (x : Nat) : (u64le x).length = 8 := rfl

theorem rU32_u32le (x : Nat) (hx : x < 2 ^ 32) (r : List Nat) :
    rU32 (u32le x ++ r) = (x, r) := by
  simp only [u32le, List.cons_append, List.nil_append, rU32]
  refine Prod.ext ?_ rfl
  simp only
  omega

theorem rU64_u64le (x : Nat) (hx : x < 2 ^ 64) (r : List Nat) :
    rU64 (u64le x ++ r) = (x, r) := by
  simp only [u64le, List.append_assoc, rU64]
  rw [rU32_u32le _ (by omega), rU32_u32le _ (by omega)]
  refine Prod.ext ?_ rfl
  simp only
  omega

theorem rBytes_append (l r : List Nat) (n : Nat) (h : l.length = n) :
    rBytes n (l ++ r) = (l, r) := by
  subst h
  simp [rBytes]

/-! ## The header model

Modelled from the spec: the struct definitions live in bootimg.h, which is
not among the sources here.  The layout is the standard Android boot image
header the spec describes: a version-0 struct of 1632 bytes
(8-byte magic, ten 32-bit words, 16-byte name, 512-byte cmdline, eight
32-bit id words, 1024-byte extra cmdline), a version-1 struct appending
recovery_dtbo_size (u32), recovery_dtbo_offset (u64) and header_size (u32)
for 1648 bytes, and a version-2 struct appending dtb_size (u32) and
dtb_addr (u64) for 1660 bytes; the magic is the 8 ASCII bytes of ANDROID!.
The union of the three struct views in t_abootimg is modelled as one
structure holding the superset of the fields (the spec's HeaderModel). -/

/-- Byte capacity of the magic field (BOOT_MAGIC_SIZE). -/
def BOOT_MAGIC_SIZE : Nat := 8

/-- Byte capacity of the name field (BOOT_NAME_SIZE). -/
def BOOT_NAME_SIZE : Nat := 16

/-- Byte capacity of the cmdline field (BOOT_ARGS_SIZE). -/
def BOOT_ARGS_SIZE : Nat := 512

/-- Byte capacity of the extra cmdline field (BOOT_EXTRA_ARGS_SIZE). -/
def BOOT_EXTRA_ARGS_SIZE : Nat := 1024

/-- The magic tag: the ASCII bytes of ANDROID!. -/
def BOOT_MAGIC : List Nat := [65, 78, 68, 82, 79, 73, 68, 33]

/-- In-memory header: the superset of the fields of boot_img_hdr_v0,
boot_img_hdr_v1 and boot_img_hdr_v2 (the three overlapping union members
of t_abootimg).  Byte-array fields are byte lists; integer fields are
`Nat` values of their C width. -/
structure BootImgHdr where
  magic : List Nat
  kernel_size : Nat
  kernel_addr : Nat
  ramdisk_size : Nat
  ramdisk_addr : Nat
  second_size : Nat
  second_addr : Nat
  tags_addr : Nat
  page_size : Nat
  header_version : Nat
  os_version : Nat
  name : List Nat
  cmdline : List Nat
  id : List Nat
  extra_cmdline : List Nat
  recovery_dtbo_size : Nat
  recovery_dtbo_offset : Nat
  header_size : Nat
  dtb_size : Nat
  dtb_addr : Nat
deriving Repr, DecidableEq

/-- Byte size of the version-0 header struct. -/
def hdr_v0_size : Nat := 1632

/-- Byte size of the version-1 header struct. -/
def hdr_v1_size : Nat := 1648

/-- Byte size of the version-2 header struct. -/
def hdr_v2_size : Nat := 1660

/-- Struct size for a declared header version: translation of
boot_img_header_size (src/abootimg.c:305-315), with the version passed
explicitly.  Versions above 2 fall through to the version-2 size. -/
def headerSizeOfVersion (v : Nat) : Nat :=
  if v = 0 then hdr_v0_size
  else if v = 1 then hdr_v1_size
  else hdr_v2_size

/-- Translation of boot_img_header_size (src/abootimg.c:305-315). -/
def boot_img_header_size (h : BootImgHdr) : Nat :=
  headerSizeOfVersion h.header_version

/-! ## Header serialization -/

/-- Wire bytes of the version-0 portion of the in-memory header. -/
def encV0 (h : BootImgHdr) : List Nat :=
  h.magic ++ u32le h.kernel_size ++ u32le h.kernel_addr ++
  u32le h.ramdisk_size ++ u32le h.ramdisk_addr ++
  u32le h.second_size ++ u32le h.second_addr ++
  u32le h.tags_addr ++ u32le h.page_size ++
  u32le h.header_version ++ u32le h.os_version ++
  h.name ++ h.cmdline ++ h.id ++ h.extra_cmdline

/-- Wire bytes of the version-1 extension (recovery dtbo fields and
header_size). -/
def encV1ext (h : BootImgHdr) : List Nat :=
  u32le h.recovery_dtbo_size ++ u64le h.recovery_dtbo_offset ++
  u32le h.header_size

/-- Wire bytes of the version-2 extension (dtb fields). -/
def encV2ext (h : BootImgHdr) : List Nat :=
  u32le h.dtb_size ++ u64le h.dtb_addr

/-- Full wire image of the in-memory struct (the version-2 view of the
union in t_abootimg). -/
def encHdrFull (h : BootImgHdr) : List Nat :=
  encV0 h ++ encV1ext h ++ encV2ext h

/-- Bytes emitted for the header by write_bootimg (src/abootimg.c:782-783):
fwrite of the in-memory struct, truncated at the struct size of the
declared version. -/
def encodeHeaderBytes (h : BootImgHdr) : List Nat :=
  (encHdrFull h).take (boot_img_header_size h)

/-! ## Header decoding (read_header, src/abootimg.c:412-437) -/

/-- Failure conditions of header decoding.  The source aborts the process
in both short-read paths of read_header; the spec names the condition
TruncatedHeader. -/
inductive DecodeErr where
  | TruncatedHeader
deriving Repr, DecidableEq

/-- Read of a fixed-size byte-array struct field at a byte offset. -/
def rdBytesAt (bs : List Nat) (off n : Nat) : List Nat :=
  (bs.drop off).take n

/-- Read of a little-endian uint32_t struct field at a byte offset. -/
def rdU32At (bs : List Nat) (off : Nat) : Nat :=
  (rU32 (bs.drop off)).1

/-- Read of a little-endian uint64_t struct field at a byte offset. -/
def rdU64At (bs : List Nat) (off : Nat) : Nat :=
  (rU64 (bs.drop off)).1

/-- Translation of the parsing part of read_header (src/abootimg.c:412-437):
read the version-0-sized prefix to learn the version, then the
version-dependent remainder from the same position, then zero the fields
from the struct size of that version up to the version-2 layout.  A stream
shorter than either read fails (in the source, fread leaves the stream
short and the function aborts).  Fields are read at their byte offsets in
the packed struct the two freads fill. -/
def read_header_bytes (bs : List Nat) : Except DecodeErr BootImgHdr :=
  if bs.length < hdr_v0_size then .error .TruncatedHeader else
  let header_version := rdU32At bs 40
  let hsize := headerSizeOfVersion header_version
  if bs.length < hsize then .error .TruncatedHeader else
  .ok ⟨rdBytesAt bs 0 8, rdU32At bs 8, rdU32At bs 12, rdU32At bs 16,
       rdU32At bs 20, rdU32At bs 24, rdU32At bs 28, rdU32At bs 32,
       rdU32At bs 36, header_version, rdU32At bs 44, rdBytesAt bs 48 16,
       rdBytesAt bs 64 512, rdBytesAt bs 576 32, rdBytesAt bs 608 1024,
       if hdr_v1_size ≤ hsize then rdU32At bs 1632 else 0,
       if hdr_v1_size ≤ hsize then rdU64At bs 1636 else 0,
       if hdr_v1_size ≤ hsize then rdU32At bs 1644 else 0,
       if hdr_v2_size ≤ hsize then rdU32At bs 1648 else 0,
       if hdr_v2_size ≤ hsize then rdU64At bs 1652 else 0⟩

/-! ## Header validity

A valid header in the sense of the spec's HeaderModel: the field widths of
the struct are respected, the magic is in place, the version is supported,
header_size is consistent for version 1 and above, the mandatory sizes are
non-zero, and fields beyond the declared version are zero (the spec's
zero-extension rule, which decode establishes for every header it
produces). -/
structure ValidHeader (h : BootImgHdr) : Prop where
  magic_eq : h.magic = BOOT_MAGIC
  name_len : h.name.length = BOOT_NAME_SIZE
  cmdline_len : h.cmdline.length = BOOT_ARGS_SIZE
  id_len : h.id.length = 32
  extra_len : h.extra_cmdline.length = BOOT_EXTRA_ARGS_SIZE
  kernel_size_lt : h.kernel_size < 2 ^ 32
  kernel_addr_lt : h.kernel_addr < 2 ^ 32
  ramdisk_size_lt : h.ramdisk_size < 2 ^ 32
  ramdisk_addr_lt : h.ramdisk_addr < 2 ^ 32
  second_size_lt : h.second_size < 2 ^ 32
  second_addr_lt : h.second_addr < 2 ^ 32
  tags_addr_lt : h.tags_addr < 2 ^ 32
  page_size_lt : h.page_size < 2 ^ 32
  os_version_lt : h.os_version < 2 ^ 32
  recovery_dtbo_size_lt : h.recovery_dtbo_size < 2 ^ 32
  recovery_dtbo_offset_lt : h.recovery_dtbo_offset < 2 ^ 64
  header_size_lt : h.header_size < 2 ^ 32
  dtb_size_lt : h.dtb_size < 2 ^ 32
  dtb_addr_lt : h.dtb_addr < 2 ^ 64
  version_le : h.header_version ≤ 2
  header_size_eq : 1 ≤ h.header_version →
    h.header_size = headerSizeOfVersion h.header_version
  v0_zero : h.header_version = 0 →
    h.recovery_dtbo_size = 0 ∧ h.recovery_dtbo_offset = 0 ∧ h.header_size = 0
  v1_zero : h.header_version ≤ 1 → h.dtb_size = 0 ∧ h.dtb_addr = 0
  kernel_size_pos : h.kernel_size ≠ 0
  ramdisk_size_pos : h.ramdisk_size ≠ 0
  page_size_pos : h.page_size ≠ 0

theorem encV0_length (h : BootImgHdr) (hv : ValidHeader h) :
    (encV0 h).length = hdr_v0_size := by
  simp [encV0, hv.magic_eq, hv.name_len, hv.cmdline_len, hv.id_len,
    hv.extra_len, BOOT_MAGIC, BOOT_NAME_SIZE, BOOT_ARGS_SIZE,
    BOOT_EXTRA_ARGS_SIZE, hdr_v0_size]

theorem encV1ext_length (h : BootImgHdr) : (encV1ext h).length = 16 := by
  simp [encV1ext]

theorem encV2ext_length (h : BootImgHdr) : (encV2ext h).length = 12 := by
  simp [encV2ext]

/-! ## Round trip of the header codec -/

theorem rU32_u32le_mod (x : Nat) (r : List Nat) :
    rU32 (u32le x ++ r) = (x % 2 ^ 32, r) := by
  simp only [u32le, List.cons_append, List.nil_append, rU32]
  refine Prod.ext ?_ rfl
  simp only
  omega

theorem fst_rU32_u32le (x : Nat) (r : List Nat) :
    (rU32 (u32le x ++ r)).1 = x % 2 ^ 32 := by
  rw [rU32_u32le_mod]

theorem fst_rU64_u64le (x : Nat) (r : List Nat) :
    (rU64 (u64le x ++ r)).1 = x % 2 ^ 64 := by
  simp only [u64le, List.append_assoc]
  rw [rU64, rU32_u32le_mod]
  simp only
  rw [rU32_u32le_mod]
  simp only
  rw [show (2 : Nat) ^ 64 = 2 ^ 32 * 2 ^ 32 by norm_num, Nat.mod_mul]
  omega

set_option maxHeartbeats 2000000 in
theorem rt_v0 (h : BootImgHdr) (hv : ValidHeader h)
    (hv0 : h.header_version = 0) (rest : List Nat) :
    read_header_bytes (encV0 h ++ rest) = .ok h := by
  have hm8 : h.magic.length = 8 := by rw [hv.magic_eq]; rfl
  have hn16 : h.name.length = 16 := hv.name_len
  have hc512 : h.cmdline.length = 512 := hv.cmdline_len
  have hi32 : h.id.length = 32 := hv.id_len
  have he1024 : h.extra_cmdline.length = 1024 := hv.extra_len
  have hns : ¬ ((encV0 h ++ rest).length < hdr_v0_size) := by
    rw [List.length_append, encV0_length h hv]; omega
  have hv40 : rdU32At (encV0 h ++ rest) 40 = h.header_version := by
    simp only [encV0, List.append_assoc]
    simp [rdU32At, List.drop_append_eq_append_drop, hm8,
      List.drop_eq_nil_of_le, fst_rU32_u32le]
    omega
  obtain ⟨z1, z2, z3⟩ := hv.v0_zero hv0
  obtain ⟨z4, z5⟩ := hv.v1_zero (by omega)
  unfold read_header_bytes
  rw [if_neg hns]
  dsimp only
  rw [hv40, hv0, show headerSizeOfVersion 0 = hdr_v0_size from rfl, if_neg hns]
  simp only [encV0, List.append_assoc]
  simp [rdU32At, rdU64At, rdBytesAt, List.drop_append_eq_append_drop,
    List.take_append_eq_append_take, hm8, hn16, hc512, hi32, he1024,
    List.drop_eq_nil_of_le, List.take_of_length_le,
    fst_rU32_u32le, fst_rU64_u64le, hdr_v0_size, hdr_v1_size, hdr_v2_size,
    Nat.mod_eq_of_lt hv.kernel_size_lt, Nat.mod_eq_of_lt hv.kernel_addr_lt,
    Nat.mod_eq_of_lt hv.ramdisk_size_lt, Nat.mod_eq_of_lt hv.ramdisk_addr_lt,
    Nat.mod_eq_of_lt hv.second_size_lt, Nat.mod_eq_of_lt hv.second_addr_lt,
    Nat.mod_eq_of_lt hv.tags_addr_lt, Nat.mod_eq_of_lt hv.page_size_lt,
    Nat.mod_eq_of_lt hv.os_version_lt]
  have b01 := hv.kernel_size_lt
  have b02 := hv.kernel_addr_lt
  have b03 := hv.ramdisk_size_lt
  have b04 := hv.ramdisk_addr_lt
  have b05 := hv.second_size_lt
  have b06 := hv.second_addr_lt
  have b07 := hv.tags_addr_lt
  have b08 := hv.page_size_lt
  have b09 := hv.os_version_lt
  have b10 := hv.recovery_dtbo_size_lt
  have b11 := hv.recovery_dtbo_offset_lt
  have b12 := hv.header_size_lt
  have b13 := hv.dtb_size_lt
  have b14 := hv.dtb_addr_lt
  obtain ⟨mg, ks, ka, rs, ra, ss, sa, ta, ps, hver, osv, nm, cl, idl, ec, rds, rdo, hsz, ds, da⟩ := h
  simp_all



set_option maxHeartbeats 2000000 in
theorem rt_v1 (h : BootImgHdr) (hv : ValidHeader h)
    (hv1 : h.header_version = 1) (rest : List Nat) :
    read_header_bytes (encV0 h ++ (encV1ext h ++ rest)) = .ok h := by
  have hm8 : h.magic.length = 8 := by rw [hv.magic_eq]; rfl
  have hn16 : h.name.length = 16 := hv.name_len
  have hc512 : h.cmdline.length = 512 := hv.cmdline_len
  have hi32 : h.id.length = 32 := hv.id_len
  have he1024 : h.extra_cmdline.length = 1024 := hv.extra_len
  have hlen : (encV0 h ++ (encV1ext h ++ rest)).length = 1648 + rest.length := by
    simp only [List.length_append, encV0_length h hv, encV1ext_length, hdr_v0_size]
    omega
  have hns : ¬ ((encV0 h ++ (encV1ext h ++ rest)).length < hdr_v0_size) := by
    rw [hlen]; simp only [hdr_v0_size]; omega
  have hns2 : ¬ ((encV0 h ++ (encV1ext h ++ rest)).length < hdr_v1_size) := by
    rw [hlen]; simp only [hdr_v1_size]; omega
  have hv40 : rdU32At (encV0 h ++ (encV1ext h ++ rest)) 40 = h.header_version := by
    simp only [encV0, List.append_assoc]
    simp [rdU32At, List.drop_append_eq_append_drop, hm8,
      List.drop_eq_nil_of_le, fst_rU32_u32le]
    omega
  obtain ⟨z4, z5⟩ := hv.v1_zero (by omega)
  unfold read_header_bytes
  rw [if_neg hns]
  dsimp only
  rw [hv40, hv1, show headerSizeOfVersion 1 = hdr_v1_size from rfl, if_neg hns2]
  simp only [encV0, encV1ext, List.append_assoc]
  simp [rdU32At, rdU64At, rdBytesAt, List.drop_append_eq_append_drop,
    List.take_append_eq_append_take, hm8, hn16, hc512, hi32, he1024,
    List.drop_eq_nil_of_le, List.take_of_length_le,
    fst_rU32_u32le, fst_rU64_u64le, hdr_v0_size, hdr_v1_size, hdr_v2_size,
    Nat.mod_eq_of_lt hv.kernel_size_lt, Nat.mod_eq_of_lt hv.kernel_addr_lt,
    Nat.mod_eq_of_lt hv.ramdisk_size_lt, Nat.mod_eq_of_lt hv.ramdisk_addr_lt,
    Nat.mod_eq_of_lt hv.second_size_lt, Nat.mod_eq_of_lt hv.second_addr_lt,
    Nat.mod_eq_of_lt hv.tags_addr_lt, Nat.mod_eq_of_lt hv.page_size_lt,
    Nat.mod_eq_of_lt hv.os_version_lt,
    Nat.mod_eq_of_lt hv.recovery_dtbo_size_lt,
    Nat.mod_eq_of_lt hv.recovery_dtbo_offset_lt,
    Nat.mod_eq_of_lt hv.header_size_lt]
  have b01 := hv.kernel_size_lt
  have b02 := hv.kernel_addr_lt
  have b03 := hv.ramdisk_size_lt
  have b04 := hv.ramdisk_addr_lt
  have b05 := hv.second_size_lt
  have b06 := hv.second_addr_lt
  have b07 := hv.tags_addr_lt
  have b08 := hv.page_size_lt
  have b09 := hv.os_version_lt
  have b10 := hv.recovery_dtbo_size_lt
  have b11 := hv.recovery_dtbo_offset_lt
  have b12 := hv.header_size_lt
  have b13 := hv.dtb_size_lt
  have b14 := hv.dtb_addr_lt
  obtain ⟨mg, ks, ka, rs, ra, ss, sa, ta, ps, hver, osv, nm, cl, idl, ec, rds, rdo, hsz, ds, da⟩ := h
  simp_all

set_option maxHeartbeats 2000000 in
theorem rt_v2 (h : BootImgHdr) (hv : ValidHeader h)
    (hv2 : h.header_version = 2) (rest : List Nat) :
    read_header_bytes (encV0 h ++ (encV1ext h ++ (encV2ext h ++ rest))) = .ok h := by
  have hm8 : h.magic.length = 8 := by rw [hv.magic_eq]; rfl
  have hn16 : h.name.length = 16 := hv.name_len
  have hc512 : h.cmdline.length = 512 := hv.cmdline_len
  have hi32 : h.id.length = 32 := hv.id_len
  have he1024 : h.extra_cmdline.length = 1024 := hv.extra_len
  have hlen : (encV0 h ++ (encV1ext h ++ (encV2ext h ++ rest))).length
      = 1660 + rest.length := by
    simp only [List.length_append, encV0_length h hv, encV1ext_length,
      encV2ext_length, hdr_v0_size]
    omega
  have hns : ¬ ((encV0 h ++ (encV1ext h ++ (encV2ext h ++ rest))).length
      < hdr_v0_size) := by
    rw [hlen]; simp only [hdr_v0_size]; omega
  have hns2 : ¬ ((encV0 h ++ (encV1ext h ++ (encV2ext h ++ rest))).length
      < hdr_v2_size) := by
    rw [hlen]; simp only [hdr_v2_size]; omega
  have hv40 : rdU32At (encV0 h ++ (encV1ext h ++ (encV2ext h ++ rest))) 40
      = h.header_version := by
    simp only [encV0, List.append_assoc]
    simp [rdU32At, List.drop_append_eq_append_drop, hm8,
      List.drop_eq_nil_of_le, fst_rU32_u32le]
    omega
  unfold read_header_bytes
  rw [if_neg hns]
  dsimp only
  rw [hv40, hv2, show headerSizeOfVersion 2 = hdr_v2_size from rfl, if_neg hns2]
  simp only [encV0, encV1ext, encV2ext, List.append_assoc]
  simp [rdU32At, rdU64At, rdBytesAt, List.drop_append_eq_append_drop,
    List.take_append_eq_append_take, hm8, hn16, hc512, hi32, he1024,
    List.drop_eq_nil_of_le, List.take_of_length_le,
    fst_rU32_u32le, fst_rU64_u64le, hdr_v0_size, hdr_v1_size, hdr_v2_size,
    Nat.mod_eq_of_lt hv.kernel_size_lt, Nat.mod_eq_of_lt hv.kernel_addr_lt,
    Nat.mod_eq_of_lt hv.ramdisk_size_lt, Nat.mod_eq_of_lt hv.ramdisk_addr_lt,
    Nat.mod_eq_of_lt hv.second_size_lt, Nat.mod_eq_of_lt hv.second_addr_lt,
    Nat.mod_eq_of_lt hv.tags_addr_lt, Nat.mod_eq_of_lt hv.page_size_lt,
    Nat.mod_eq_of_lt hv.os_version_lt,
    Nat.mod_eq_of_lt hv.recovery_dtbo_size_lt,
    Nat.mod_eq_of_lt hv.recovery_dtbo_offset_lt,
    Nat.mod_eq_of_lt hv.header_size_lt,
    Nat.mod_eq_of_lt hv.dtb_size_lt, Nat.mod_eq_of_lt hv.dtb_addr_lt]
  have b01 := hv.kernel_size_lt
  have b02 := hv.kernel_addr_lt
  have b03 := hv.ramdisk_size_lt
  have b04 := hv.ramdisk_addr_lt
  have b05 := hv.second_size_lt
  have b06 := hv.second_addr_lt
  have b07 := hv.tags_addr_lt
  have b08 := hv.page_size_lt
  have b09 := hv.os_version_lt
  have b10 := hv.recovery_dtbo_size_lt
  have b11 := hv.recovery_dtbo_offset_lt
  have b12 := hv.header_size_lt
  have b13 := hv.dtb_size_lt
  have b14 := hv.dtb_addr_lt
  obtain ⟨mg, ks, ka, rs, ra, ss, sa, ta, ps, hver, osv, nm, cl, idl, ec, rds, rdo, hsz, ds, da⟩ := h
  simp_all

theorem encodeHeaderBytes_v0 (h : BootImgHdr) (hv : ValidHeader h)
    (h0 : h.header_version = 0) : encodeHeaderBytes h = encV0 h := by
  unfold encodeHeaderBytes encHdrFull boot_img_header_size
  rw [h0, show headerSizeOfVersion 0 = hdr_v0_size from rfl,
    List.append_assoc, ← encV0_length h hv, List.take_left]

theorem encodeHeaderBytes_v1 (h : BootImgHdr) (hv : ValidHeader h)
    (h1 : h.header_version = 1) :
    encodeHeaderBytes h = encV0 h ++ encV1ext h := by
  unfold encodeHeaderBytes encHdrFull boot_img_header_size
  rw [h1, show headerSizeOfVersion 1 = hdr_v1_size from rfl,
    show hdr_v1_size = (encV0 h ++ encV1ext h).length from by
      simp [List.length_append, encV0_length h hv, encV1ext_length,
        hdr_v0_size, hdr_v1_size],
    List.take_left]

theorem encodeHeaderBytes_v2 (h : BootImgHdr) (hv : ValidHeader h)
    (h2 : h.header_version = 2) :
    encodeHeaderBytes h = encV0 h ++ encV1ext h ++ encV2ext h := by
  unfold encodeHeaderBytes encHdrFull boot_img_header_size
  rw [h2, show headerSizeOfVersion 2 = hdr_v2_size from rfl]
  refine List.take_of_length_le ?_
  simp [List.length_append, encV0_length h hv, encV1ext_length,
    encV2ext_length, hdr_v0_size, hdr_v2_size]

/-- Round trip at the byte level: decoding any stream that starts with the
encoded bytes of a valid header yields that header back. -/
theorem read_header_bytes_encode (h : BootImgHdr) (hv : ValidHeader h)
    (rest : List Nat) :
    read_header_bytes (encodeHeaderBytes h ++ rest) = .ok h := by
  by_cases h0 : h.header_version = 0
  · rw [encodeHeaderBytes_v0 h hv h0]
    exact rt_v0 h hv h0 rest
  · by_cases h1 : h.header_version = 1
    · rw [encodeHeaderBytes_v1 h hv h1, List.append_assoc]
      exact rt_v1 h hv h1 rest
    · have h2 : h.header_version = 2 := by
        have := hv.version_le
        omega
      rw [encodeHeaderBytes_v2 h hv h2, List.append_assoc, List.append_assoc]
      exact rt_v2 h hv h2 rest

/-! ## Layout arithmetic

The page count and the region offsets are computed identically in
check_boot_img_header (src/abootimg.c:347-353), update_images
(src/abootimg.c:657-666, 728-733), write_bootimg (src/abootimg.c:773-777)
and the extract functions, always in C `unsigned` (32-bit) arithmetic. -/

/-- Number of pages a region of x bytes occupies, as the source computes
it: (x + page_size - 1) / page_size in unsigned arithmetic.  The sum and
the decrement wrap at 2^32 (valid for x, P below 2^32, the range of the
uint32_t operands). -/
def pagesC (x P : Nat) : Nat :=
  ((x + P + 2 ^ 32 - 1) % 2 ^ 32) / P

/-- Byte offset of the kernel region: 1 * psize (write_bootimg). -/
def koffsetC (P : Nat) : Nat :=
  (1 * P) % 2 ^ 32

/-- Byte offset of the ramdisk region: (1+n)*page_size (update_images). -/
def roffsetC (P k : Nat) : Nat :=
  ((1 + pagesC k P) * P) % 2 ^ 32

/-- Byte offset of the second stage region: (1+n+m)*page_size. -/
def soffsetC (P k r : Nat) : Nat :=
  ((1 + pagesC k P + pagesC r P) * P) % 2 ^ 32

/-- Byte offset of the recovery dtbo region: (1+n+m+o)*page_size. -/
def dooffsetC (P k r s : Nat) : Nat :=
  ((1 + pagesC k P + pagesC r P + pagesC s P) * P) % 2 ^ 32

/-- Byte offset of the dtb region: (1+n+m+o+p)*page_size. -/
def doffsetC (P k r s o : Nat) : Nat :=
  ((1 + pagesC k P + pagesC r P + pagesC s P + pagesC o P) * P) % 2 ^ 32

/-- Total image size: (1+n+m+o+p+q)*page_size (update_images and
check_boot_img_header). -/
def totalSizeOf (P k r s o d : Nat) : Nat :=
  ((1 + pagesC k P + pagesC r P + pagesC s P + pagesC o P + pagesC d P) * P)
    % 2 ^ 32

/-- Total image size computed from a header's fields. -/
def totalSizeC (h : BootImgHdr) : Nat :=
  totalSizeOf h.page_size h.kernel_size h.ramdisk_size h.second_size
    h.recovery_dtbo_size h.dtb_size

/-- Page count as the spec states it: pages(x) = ceil(x / P), written
(x + P - 1) / P in exact natural arithmetic. -/
def pagesSpec (x P : Nat) : Nat :=
  (x + P - 1) / P

/-! ## The validator (check_boot_img_header, src/abootimg.c:318-361) -/

/-- The seven structural failure conditions of the validator, one
constructor per distinct message of check_boot_img_header. -/
inductive CheckFailure where
  | BadMagic
  | UnsupportedVersion
  | HeaderSizeMismatch
  | EmptyKernel
  | EmptyRamdisk
  | ZeroPageSize
  | ImageTooSmall
deriving Repr, DecidableEq

/-- Result of the validator.  A soft failure is a fprintf plus return 1
(the caller decides whether to abort); a fatal failure is an abort_printf
(processing stops inside the validator). -/
inductive CheckResult where
  | ok
  | soft (f : CheckFailure)
  | fatal (f : CheckFailure)
deriving Repr, DecidableEq

/-- Translation of check_boot_img_header (src/abootimg.c:318-361): the
checks in source order, each reporting its own condition; the version
bound and the header-size consistency checks abort (fatal), the others
return 1 (soft).  imgSize is img->size, the container byte size. -/
def check_boot_img_header (h : BootImgHdr) (imgSize : Nat) : CheckResult :=
  if h.magic ≠ BOOT_MAGIC then .soft .BadMagic
  else if 2 < h.header_version then .fatal .UnsupportedVersion
  else if 1 ≤ h.header_version ∧ h.header_size ≠ boot_img_header_size h then
    .fatal .HeaderSizeMismatch
  else if h.kernel_size = 0 then .soft .EmptyKernel
  else if h.ramdisk_size = 0 then .soft .EmptyRamdisk
  else if h.page_size = 0 then .soft .ZeroPageSize
  else if imgSize < totalSizeC h then .soft .ImageTooSmall
  else .ok

/-- First failing entry of an ordered check list: each entry is a passing
condition paired with the result reported when it fails. -/
def firstFailure : List (Bool × CheckResult) → CheckResult
  | [] => .ok
  | (pass, res) :: rest => if pass then firstFailure rest else res

/-- The validator as the spec describes it (section 4.3): seven checks in
the fixed order magic, version bound, header-size consistency (version 1
and above only), non-zero kernel size, non-zero ramdisk size, non-zero
page size, total-size-fits-container, reporting the first failure as its
own distinct condition, with UnsupportedVersion and HeaderSizeMismatch
fatal and the others soft. -/
def validatorSpec (h : BootImgHdr) (imgSize : Nat) : CheckResult :=
  firstFailure
    [(decide (h.magic = BOOT_MAGIC), .soft .BadMagic),
     (decide (h.header_version ≤ 2), .fatal .UnsupportedVersion),
     (decide (h.header_version < 1 ∨
        h.header_size = headerSizeOfVersion h.header_version),
      .fatal .HeaderSizeMismatch),
     (decide (h.kernel_size ≠ 0), .soft .EmptyKernel),
     (decide (h.ramdisk_size ≠ 0), .soft .EmptyRamdisk),
     (decide (h.page_size ≠ 0), .soft .ZeroPageSize),
     (decide (totalSizeC h ≤ imgSize), .soft .ImageTooSmall)]


/-! ## C3: the validator runs the seven checks in order -/

set_option maxHeartbeats 1000000 in
/-- C3: for every decoded header and container size, the validator runs
exactly the seven checks in the fixed order magic, version bound,
header-size consistency (version 1 and above only), non-zero kernel size,
non-zero ramdisk size, non-zero page size, total-size-fits-container, and
reports the first failing check as its own distinct condition (BadMagic,
UnsupportedVersion, HeaderSizeMismatch, EmptyKernel, EmptyRamdisk,
ZeroPageSize, ImageTooSmall); UnsupportedVersion and HeaderSizeMismatch
are fatal (the source aborts inside the validator), the others are soft in
the decode path (the validator returns 1 and the caller decides).  Stated
as: the translated validator equals the ordered first-failure reading of
the spec's check list. -/
theorem C3_validator_first_failure (h : BootImgHdr) (imgSize : Nat) :
    check_boot_img_header h imgSize = validatorSpec h imgSize := by
  by_cases c1 : h.magic = BOOT_MAGIC
  · by_cases c2 : 2 < h.header_version
    · simp [check_boot_img_header, validatorSpec, firstFailure, c1, c2,
        show ¬ h.header_version ≤ 2 from by omega]
    · have c2' : h.header_version ≤ 2 := by omega
      by_cases c3 : 1 ≤ h.header_version ∧
          h.header_size ≠ boot_img_header_size h
      · have c3' : ¬ (h.header_version = 0 ∨
            h.header_size = headerSizeOfVersion h.header_version) := by
          simp only [boot_img_header_size] at c3
          rintro (hlt | heq)
          · omega
          · exact c3.2 heq
        simp [check_boot_img_header, validatorSpec, firstFailure, c1, c2, c3,
          c2', c3']
      · have c3' : h.header_version = 0 ∨
            h.header_size = headerSizeOfVersion h.header_version := by
          simp only [boot_img_header_size] at c3
          by_cases hv1 : 1 ≤ h.header_version
          · right
            by_contra hne
            exact c3 ⟨hv1, hne⟩
          · left
            omega
        by_cases c4 : h.kernel_size = 0
        · simp [check_boot_img_header, validatorSpec, firstFailure, c1, c2,
            c3, c4, c2', c3']
        · by_cases c5 : h.ramdisk_size = 0
          · simp [check_boot_img_header, validatorSpec, firstFailure, c1, c2,
              c3, c4, c5, c2', c3']
          · by_cases c6 : h.page_size = 0
            · simp [check_boot_img_header, validatorSpec, firstFailure, c1,
                c2, c3, c4, c5, c6, c2', c3']
            · by_cases c7 : imgSize < totalSizeC h
              · simp [check_boot_img_header, validatorSpec, firstFailure, c1,
                  c2, c3, c4, c5, c6, c7, c2', c3',
                  show ¬ totalSizeC h ≤ imgSize from by omega]
              · simp [check_boot_img_header, validatorSpec, firstFailure, c1,
                  c2, c3, c4, c5, c6, c7, c2', c3',
                  show totalSizeC h ≤ imgSize from by omega]
  · simp [check_boot_img_header, validatorSpec, firstFailure, c1]


/-! ## C2: the page-aligned layout -/

theorem pagesC_eq_pagesSpec (x P : Nat) (hP : 0 < P) (hb : x + P ≤ 2 ^ 32) :
    pagesC x P = pagesSpec x P := by
  unfold pagesC pagesSpec
  have hnum : (x + P + 2 ^ 32 - 1) % 2 ^ 32 = x + P - 1 := by omega
  rw [hnum]

/-! ## Stream semantics and the image writer (write_bootimg) -/

/-- One fseek+fwrite pair: absolute byte offset and the bytes written. -/
structure WriteOp where
  off : Nat
  data : List Nat
deriving Repr, DecidableEq

/-- File semantics of fseek followed by fwrite: seeking past the end and
writing leaves a zero-filled gap, writing overwrites in place and may
extend the file. -/
def writeAt (s : List Nat) (off : Nat) (d : List Nat) : List Nat :=
  s.take off ++ (List.replicate (off - s.length) 0 ++ (d ++ s.drop (off + d.length)))

/-- ftruncate semantics: the file is shrunk, or zero-extended, to exactly
n bytes. -/
def truncateTo (s : List Nat) (n : Nat) : List Nat :=
  s.take n ++ List.replicate (n - s.length) 0

/-- Applying a sequence of writes, in order, to a stream. -/
def applyOps (s : List Nat) (ops : List WriteOp) : List Nat :=
  ops.foldl (fun acc op => writeAt acc op.off op.data) s

/-- The five payload buffers of t_abootimg (kernel, ramdisk, second, dtbo,
dtb); none is a NULL pointer. -/
structure PayloadSet where
  kernel : Option (List Nat)
  ramdisk : Option (List Nat)
  second : Option (List Nat)
  dtbo : Option (List Nat)
  dtb : Option (List Nat)
deriving Repr, DecidableEq

/-- The parts of t_abootimg the codec operates on: the header union, the
container size (img->size, a C unsigned), the block-device flag and the
payload buffers. -/
structure ImgState where
  header : BootImgHdr
  size : Nat
  is_blkdev : Bool
  payloads : PayloadSet
deriving Repr, DecidableEq

/-- C unsigned 32-bit subtraction: (a - b) mod 2^32. -/
def u32sub (a b : Nat) : Nat :=
  (a % 2 ^ 32 + (2 ^ 32 - b % 2 ^ 32)) % 2 ^ 32

/-- Length of the zero padding written after the header by write_bootimg
(src/abootimg.c:787): psize - header_size in unsigned arithmetic, which
wraps when page_size is smaller than the header struct. -/
def headerPadLen (h : BootImgHdr) : Nat :=
  u32sub h.page_size (boot_img_header_size h)

/-- Translation of write_bootimg_part (src/abootimg.c:741-758): seek to
offset, write the size bytes of the buffer, then write
psize - (size mod psize) bytes of zero padding.  The buffer d holds the
size bytes the source passes (fwrite(part, size, 1)). -/
def write_bootimg_part (psize off size : Nat) (d : List Nat) : WriteOp :=
  ⟨off, d ++ List.replicate (psize - size % psize) 0⟩

/-- The writes emitted by write_bootimg (src/abootimg.c:761-814) in source
order: the header with its padding at offset 0, then one padded write per
region whose buffer is non-NULL (for second stage, recovery dtbo and dtb
also requiring a non-zero size field), at the page-aligned offsets
computed in 32-bit arithmetic. -/
def write_bootimg_ops (img : ImgState) : List WriteOp :=
  let psize := img.header.page_size
  let ks := img.header.kernel_size
  let rs := img.header.ramdisk_size
  let ss := img.header.second_size
  let dos := img.header.recovery_dtbo_size
  let ds := img.header.dtb_size
  [⟨0, encodeHeaderBytes img.header ++ List.replicate (headerPadLen img.header) 0⟩]
  ++ (match img.payloads.kernel with
      | some d => [write_bootimg_part psize (koffsetC psize) ks d]
      | none => [])
  ++ (match img.payloads.ramdisk with
      | some d => [write_bootimg_part psize (roffsetC psize ks) rs d]
      | none => [])
  ++ (match img.payloads.second with
      | some d =>
        if ss ≠ 0 then [write_bootimg_part psize (soffsetC psize ks rs) ss d]
        else []
      | none => [])
  ++ (match img.payloads.dtbo with
      | some d =>
        if dos ≠ 0 then
          [write_bootimg_part psize (dooffsetC psize ks rs ss) dos d]
        else []
      | none => [])
  ++ (match img.payloads.dtb with
      | some d =>
        if ds ≠ 0 then
          [write_bootimg_part psize (doffsetC psize ks rs ss dos) ds d]
        else []
      | none => [])

/-- Translation of write_bootimg (src/abootimg.c:761-814) at the stream
level: apply the writes to the current stream contents, then ftruncate to
img->size. -/
def write_bootimg (s0 : List Nat) (img : ImgState) : List Nat :=
  truncateTo (applyOps s0 (write_bootimg_ops img)) img.size

theorem length_writeAt (s : List Nat) (off : Nat) (d : List Nat) :
    (writeAt s off d).length = max s.length (off + d.length) := by
  simp [writeAt]
  omega

theorem length_truncateTo (s : List Nat) (n : Nat) :
    (truncateTo s n).length = n := by
  simp [truncateTo]
  omega

theorem writeAt_zero (s d : List Nat) :
    writeAt s 0 d = d ++ s.drop d.length := by
  simp [writeAt]

theorem take_writeAt_of_le (s : List Nat) (off k : Nat) (d : List Nat)
    (h1 : k ≤ off) (h2 : k ≤ s.length) :
    (writeAt s off d).take k = s.take k := by
  unfold writeAt
  rw [List.take_append_of_le_length (by simp; omega),
    List.take_take, Nat.min_eq_left h1]

theorem take_truncateTo_of_le (s : List Nat) (n k : Nat)
    (h1 : k ≤ n) (h2 : k ≤ s.length) :
    (truncateTo s n).take k = s.take k := by
  unfold truncateTo
  rw [List.take_append_of_le_length (by simp; omega),
    List.take_take, Nat.min_eq_left h1]

theorem length_le_applyOps (s : List Nat) (ops : List WriteOp) :
    s.length ≤ (applyOps s ops).length := by
  induction ops generalizing s with
  | nil => simp [applyOps]
  | cons op rest ih =>
    calc s.length ≤ (writeAt s op.off op.data).length := by
          rw [length_writeAt]; omega
      _ ≤ (applyOps (writeAt s op.off op.data) rest).length := ih _
      _ = (applyOps s (op :: rest)).length := rfl

theorem take_applyOps_of_le (k : Nat) (s : List Nat) (ops : List WriteOp)
    (hs : k ≤ s.length) (hops : ∀ op ∈ ops, k ≤ op.off) :
    (applyOps s ops).take k = s.take k := by
  induction ops generalizing s with
  | nil => simp [applyOps]
  | cons op rest ih =>
    have h1 : k ≤ op.off := hops op (by simp)
    have h2 : k ≤ (writeAt s op.off op.data).length := by
      rw [length_writeAt]; omega
    calc (applyOps s (op :: rest)).take k
        = (applyOps (writeAt s op.off op.data) rest).take k := rfl
      _ = (writeAt s op.off op.data).take k :=
          ih _ h2 (fun op' hop' => hops op' (by simp [hop']))
      _ = s.take k := take_writeAt_of_le s op.off k op.data h1 hs

theorem encHdrFull_length (h : BootImgHdr) (hv : ValidHeader h) :
    (encHdrFull h).length = hdr_v2_size := by
  simp [encHdrFull, List.length_append, encV0_length h hv, encV1ext_length,
    encV2ext_length, hdr_v0_size, hdr_v2_size]

theorem boot_img_header_size_le (h : BootImgHdr) :
    boot_img_header_size h ≤ hdr_v2_size := by
  unfold boot_img_header_size headerSizeOfVersion hdr_v0_size hdr_v1_size
    hdr_v2_size
  split_ifs <;> omega

theorem hdr_v0_size_le_boot_img_header_size (h : BootImgHdr) :
    hdr_v0_size ≤ boot_img_header_size h := by
  unfold boot_img_header_size headerSizeOfVersion hdr_v0_size hdr_v1_size
    hdr_v2_size
  split_ifs <;> omega

theorem encodeHeaderBytes_length (h : BootImgHdr) (hv : ValidHeader h) :
    (encodeHeaderBytes h).length = boot_img_header_size h := by
  unfold encodeHeaderBytes
  rw [List.length_take, encHdrFull_length h hv,
    Nat.min_eq_left (boot_img_header_size_le h)]

theorem le_pagesSpec_mul (x P : Nat) (hP : 0 < P) : x ≤ pagesSpec x P * P := by
  unfold pagesSpec
  have h1 : P * ((x + P - 1) / P) + (x + P - 1) % P = x + P - 1 :=
    Nat.div_add_mod _ _
  have h2 : (x + P - 1) % P < P := Nat.mod_lt _ hP
  have h3 : (x + P - 1) / P * P = P * ((x + P - 1) / P) := Nat.mul_comm _ _
  rw [h3]
  omega

theorem sizes_bounded_of_total (P k r s o d : Nat) (hP : 0 < P)
    (htot : (1 + pagesSpec k P + pagesSpec r P + pagesSpec s P +
      pagesSpec o P + pagesSpec d P) * P < 2 ^ 32) :
    k + P ≤ 2 ^ 32 ∧ r + P ≤ 2 ^ 32 ∧ s + P ≤ 2 ^ 32 ∧
    o + P ≤ 2 ^ 32 ∧ d + P ≤ 2 ^ 32 := by
  have hexp : (1 + pagesSpec k P + pagesSpec r P + pagesSpec s P +
      pagesSpec o P + pagesSpec d P) * P
      = P + pagesSpec k P * P + pagesSpec r P * P + pagesSpec s P * P +
        pagesSpec o P * P + pagesSpec d P * P := by ring
  rw [hexp] at htot
  have h1 := le_pagesSpec_mul k P hP
  have h2 := le_pagesSpec_mul r P hP
  have h3 := le_pagesSpec_mul s P hP
  have h4 := le_pagesSpec_mul o P hP
  have h5 := le_pagesSpec_mul d P hP
  omega

theorem layout_offsets_math (P k r s o d : Nat) (hP : 0 < P)
    (htot : (1 + pagesSpec k P + pagesSpec r P + pagesSpec s P +
      pagesSpec o P + pagesSpec d P) * P < 2 ^ 32) :
    koffsetC P = 1 * P ∧
    roffsetC P k = (1 + pagesSpec k P) * P ∧
    soffsetC P k r = (1 + pagesSpec k P + pagesSpec r P) * P ∧
    dooffsetC P k r s
      = (1 + pagesSpec k P + pagesSpec r P + pagesSpec s P) * P ∧
    doffsetC P k r s o
      = (1 + pagesSpec k P + pagesSpec r P + pagesSpec s P
          + pagesSpec o P) * P ∧
    totalSizeOf P k r s o d
      = (1 + pagesSpec k P + pagesSpec r P + pagesSpec s P
          + pagesSpec o P + pagesSpec d P) * P := by
  obtain ⟨hk, hr, hs, ho, hd⟩ := sizes_bounded_of_total P k r s o d hP htot
  have ek := pagesC_eq_pagesSpec k P hP hk
  have er := pagesC_eq_pagesSpec r P hP hr
  have es := pagesC_eq_pagesSpec s P hP hs
  have eo := pagesC_eq_pagesSpec o P hP ho
  have ed := pagesC_eq_pagesSpec d P hP hd
  have hmono : ∀ a b : Nat, a ≤ b →
      (b * P < 2 ^ 32) → a * P % 2 ^ 32 = a * P := by
    intro a b hab hb2
    exact Nat.mod_eq_of_lt (lt_of_le_of_lt (Nat.mul_le_mul_right P hab) hb2)
  refine ⟨?_, ?_, ?_, ?_, ?_, ?_⟩
  · unfold koffsetC
    exact hmono 1 _ (by omega) htot
  · unfold roffsetC
    rw [ek]
    exact hmono _ _ (by omega) htot
  · unfold soffsetC
    rw [ek, er]
    exact hmono _ _ (by omega) htot
  · unfold dooffsetC
    rw [ek, er, es]
    exact hmono _ _ (by omega) htot
  · unfold doffsetC
    rw [ek, er, es, eo]
    exact hmono _ _ (by omega) htot
  · unfold totalSizeOf
    rw [ek, er, es, eo, ed]
    exact hmono _ _ (by omega) htot

/-- C2 (amended): for every page size P > 0 and region sizes (k, r, s, o, d),
provided the total size computed with mathematical page counts fits in 32
bits (so none of the source's unsigned computations overflows), the
layout places the header at page 0, the kernel at page 1, the ramdisk at
page 1+pages(k), the second stage at page 1+pages(k)+pages(r), the
recovery dtbo at page 1+pages(k)+pages(r)+pages(s), the dtb at page
1+pages(k)+pages(r)+pages(s)+pages(o), and the total required size is
(1+pages(k)+pages(r)+pages(s)+pages(o)+pages(d))*P with pages(x)=ceil(x/P);
without the overflow provisos the unsigned arithmetic of the source wraps
and the claim fails (see the counterexample). -/
theorem C2_layout_offsets (P k r s o d : Nat) (hP : 0 < P)
    (htot : (1 + pagesSpec k P + pagesSpec r P + pagesSpec s P +
      pagesSpec o P + pagesSpec d P) * P < 2 ^ 32) :
    koffsetC P = 1 * P ∧
    roffsetC P k = (1 + pagesSpec k P) * P ∧
    soffsetC P k r = (1 + pagesSpec k P + pagesSpec r P) * P ∧
    dooffsetC P k r s
      = (1 + pagesSpec k P + pagesSpec r P + pagesSpec s P) * P ∧
    doffsetC P k r s o
      = (1 + pagesSpec k P + pagesSpec r P + pagesSpec s P
          + pagesSpec o P) * P ∧
    totalSizeOf P k r s o d
      = (1 + pagesSpec k P + pagesSpec r P + pagesSpec s P
          + pagesSpec o P + pagesSpec d P) * P :=
  layout_offsets_math P k r s o d hP htot

/-- C2 witness: the claim's own scenario P=2048, k=5000, r=3000, all other
sizes 0 gives total size 12288 bytes, via the theorem. -/
theorem C2_layout_offsets_witness :
    totalSizeOf 2048 5000 3000 0 0 0 = 12288 := by
  have hthm := C2_layout_offsets 2048 5000 3000 0 0 0 (by decide) (by decide)
  rw [hthm.2.2.2.2.2]
  decide

/-- C2 counterexample: at P=2048 and kernel size 2^32-1 the source's
unsigned page-count computation wraps to 0, so the ramdisk is placed at
byte offset 2048 instead of the (1+ceil(k/P))*P = 4294969344 the claim
requires. -/
theorem C2_layout_counterexample :
    roffsetC 2048 (2 ^ 32 - 1) = 2048 ∧
    (1 + pagesSpec (2 ^ 32 - 1) 2048) * 2048 = 4294969344 ∧
    roffsetC 2048 (2 ^ 32 - 1) ≠ (1 + pagesSpec (2 ^ 32 - 1) 2048) * 2048 := by
  refine ⟨by decide, by decide, by decide⟩

/-! ## C1: header round trip; C10: header padding underflow -/

theorem applyOps_cons (s : List Nat) (op : WriteOp) (t : List WriteOp) :
    applyOps s (op :: t) = applyOps (writeAt s op.off op.data) t := rfl

set_option maxHeartbeats 2000000 in
/-- C1 (amended): for every valid version-0, version-1 or version-2 header
(ValidHeader: widths respected, magic in place, version supported,
header_size consistent, mandatory sizes non-zero, fields beyond the
declared version zero per the spec's zero-extension rule), provided
additionally that the page size is at least the header struct size, that
the layout arithmetic does not overflow 32 bits, and that the container
size is at least the computed total (the validator's last check), encoding
an image from the header (with any payload set, so in particular with no
payload replacement) and decoding the produced stream yields the header
back.  Without the page-size proviso the claim fails: see the
counterexample, where a validator-accepted header with page_size 16 is
destroyed by its own encoding. -/
theorem C1_roundtrip (h : BootImgHdr) (isize : Nat) (blk : Bool)
    (pls : PayloadSet) (s0 : List Nat)
    (hv : ValidHeader h)
    (hps : boot_img_header_size h ≤ h.page_size)
    (htot : (1 + pagesSpec h.kernel_size h.page_size
        + pagesSpec h.ramdisk_size h.page_size
        + pagesSpec h.second_size h.page_size
        + pagesSpec h.recovery_dtbo_size h.page_size
        + pagesSpec h.dtb_size h.page_size)
        * h.page_size < 2 ^ 32)
    (hfits : totalSizeC h ≤ isize) :
    read_header_bytes (write_bootimg s0 ⟨h, isize, blk, pls⟩) = .ok h := by
  obtain ⟨pk, pr, psd, pdo, pdb⟩ := pls
  have hP : 0 < h.page_size := Nat.pos_of_ne_zero hv.page_size_pos
  have hPlt : h.page_size < 2 ^ 32 := hv.page_size_lt
  obtain ⟨ek, er, es, eo, ed2, etot⟩ := layout_offsets_math h.page_size
    h.kernel_size h.ramdisk_size h.second_size h.recovery_dtbo_size
    h.dtb_size hP htot
  have hH2 : boot_img_header_size h ≤ hdr_v2_size := boot_img_header_size_le h
  have hHlt : boot_img_header_size h < 2 ^ 32 := by
    have hlt : hdr_v2_size < 2 ^ 32 := by norm_num [hdr_v2_size]
    omega
  have hpad : headerPadLen h = h.page_size - boot_img_header_size h := by
    unfold headerPadLen u32sub
    rw [Nat.mod_eq_of_lt hPlt, Nat.mod_eq_of_lt hHlt]
    omega
  have henclen : (encodeHeaderBytes h).length = boot_img_header_size h :=
    encodeHeaderBytes_length h hv
  have hoffk : boot_img_header_size h ≤ koffsetC h.page_size := by
    rw [ek, one_mul]; exact hps
  have hoffr : boot_img_header_size h
      ≤ roffsetC h.page_size h.kernel_size := by
    rw [er]
    refine le_trans hps ?_
    calc h.page_size = 1 * h.page_size := (one_mul _).symm
      _ ≤ _ := Nat.mul_le_mul_right _ (by omega)
  have hoffs : boot_img_header_size h
      ≤ soffsetC h.page_size h.kernel_size h.ramdisk_size := by
    rw [es]
    refine le_trans hps ?_
    calc h.page_size = 1 * h.page_size := (one_mul _).symm
      _ ≤ _ := Nat.mul_le_mul_right _ (by omega)
  have hoffdo : boot_img_header_size h
      ≤ dooffsetC h.page_size h.kernel_size h.ramdisk_size h.second_size := by
    rw [eo]
    refine le_trans hps ?_
    calc h.page_size = 1 * h.page_size := (one_mul _).symm
      _ ≤ _ := Nat.mul_le_mul_right _ (by omega)
  have hoffd : boot_img_header_size h
      ≤ doffsetC h.page_size h.kernel_size h.ramdisk_size h.second_size
          h.recovery_dtbo_size := by
    rw [ed2]
    refine le_trans hps ?_
    calc h.page_size = 1 * h.page_size := (one_mul _).symm
      _ ≤ _ := Nat.mul_le_mul_right _ (by omega)
  have hPtot : h.page_size ≤ totalSizeC h := by
    unfold totalSizeC
    rw [etot]
    calc h.page_size = 1 * h.page_size := (one_mul _).symm
      _ ≤ _ := Nat.mul_le_mul_right _ (by omega)
  have hHsize : boot_img_header_size h ≤ isize :=
    le_trans hps (le_trans hPtot hfits)
  have hmem : ∀ op ∈ (write_bootimg_ops
      ⟨h, isize, blk, ⟨pk, pr, psd, pdo, pdb⟩⟩).tail,
      boot_img_header_size h ≤ op.off := by
    intro op hop
    unfold write_bootimg_ops at hop
    simp only [List.cons_append, List.tail_cons, List.mem_append] at hop
    rcases hop with ((((h2 | h3) | h4) | h5) | h6)
    · cases pk with
      | none => simp at h2
      | some d =>
        simp at h2
        rw [h2]
        exact hoffk
    · cases pr with
      | none => simp at h3
      | some d =>
        simp at h3
        rw [h3]
        exact hoffr
    · cases psd with
      | none => simp at h4
      | some d =>
        by_cases hc : h.second_size = 0
        · simp [hc] at h4
        · simp [hc] at h4
          rw [h4]
          exact hoffs
    · cases pdo with
      | none => simp at h5
      | some d =>
        by_cases hc : h.recovery_dtbo_size = 0
        · simp [hc] at h5
        · simp [hc] at h5
          rw [h5]
          exact hoffdo
    · cases pdb with
      | none => simp at h6
      | some d =>
        by_cases hc : h.dtb_size = 0
        · simp [hc] at h6
        · simp [hc] at h6
          rw [h6]
          exact hoffd
  have hcons : write_bootimg_ops ⟨h, isize, blk, ⟨pk, pr, psd, pdo, pdb⟩⟩
      = (⟨0, encodeHeaderBytes h ++ List.replicate (headerPadLen h) 0⟩ :
          WriteOp) ::
        (write_bootimg_ops ⟨h, isize, blk, ⟨pk, pr, psd, pdo, pdb⟩⟩).tail :=
    rfl
  have htake1 : (writeAt s0 0 (encodeHeaderBytes h
      ++ List.replicate (headerPadLen h) 0)).take (boot_img_header_size h)
      = encodeHeaderBytes h := by
    rw [writeAt_zero, List.append_assoc,
      List.take_append_of_le_length (by rw [henclen]),
      ← henclen, List.take_length]
  have hlen1 : boot_img_header_size h ≤ (writeAt s0 0 (encodeHeaderBytes h
      ++ List.replicate (headerPadLen h) 0)).length := by
    rw [length_writeAt]
    simp only [List.length_append, henclen]
    omega
  unfold write_bootimg
  dsimp only
  rw [hcons, applyOps_cons]
  dsimp only
  have htake2 := take_applyOps_of_le (boot_img_header_size h) _ _ hlen1 hmem
  have hlen2 : boot_img_header_size h
      ≤ (applyOps (writeAt s0 0 (encodeHeaderBytes h
          ++ List.replicate (headerPadLen h) 0))
        (write_bootimg_ops ⟨h, isize, blk, ⟨pk, pr, psd, pdo, pdb⟩⟩).tail).length :=
    le_trans hlen1 (length_le_applyOps _ _)
  have htake3 : (truncateTo (applyOps (writeAt s0 0 (encodeHeaderBytes h
      ++ List.replicate (headerPadLen h) 0))
      (write_bootimg_ops ⟨h, isize, blk, ⟨pk, pr, psd, pdo, pdb⟩⟩).tail)
      isize).take (boot_img_header_size h) = encodeHeaderBytes h := by
    rw [take_truncateTo_of_le _ _ _ hHsize hlen2, htake2, htake1]
  conv_lhs =>
    rw [← List.take_append_drop (boot_img_header_size h)
      (truncateTo (applyOps (writeAt s0 0 (encodeHeaderBytes h
        ++ List.replicate (headerPadLen h) 0))
        (write_bootimg_ops ⟨h, isize, blk, ⟨pk, pr, psd, pdo, pdb⟩⟩).tail)
        isize)]
    rw [htake3]
  exact read_header_bytes_encode h hv _

/-- Concrete valid version-0 header with the default page size. -/
def exampleV0Hdr : BootImgHdr :=
  { magic := BOOT_MAGIC, kernel_size := 1, kernel_addr := 0,
    ramdisk_size := 1, ramdisk_addr := 0, second_size := 0,
    second_addr := 0, tags_addr := 0, page_size := 2048,
    header_version := 0, os_version := 0, name := List.replicate 16 0,
    cmdline := List.replicate 512 0, id := List.replicate 32 0,
    extra_cmdline := List.replicate 1024 0, recovery_dtbo_size := 0,
    recovery_dtbo_offset := 0, header_size := 0, dtb_size := 0,
    dtb_addr := 0 }

set_option maxRecDepth 10000 in
/-- C1 witness: the round trip at a concrete valid version-0 header, all
hypotheses discharged by evaluation. -/
theorem C1_roundtrip_witness :
    read_header_bytes (write_bootimg []
      ⟨exampleV0Hdr, 6144, false, ⟨none, none, none, none, none⟩⟩)
      = .ok exampleV0Hdr :=
  C1_roundtrip exampleV0Hdr 6144 false ⟨none, none, none, none, none⟩ []
    (by constructor <;> decide) (by decide) (by decide) (by decide)

/-- Concrete header that passes every validator check although its page
size (16) is smaller than its header struct size (1632). -/
def smallPageHdr : BootImgHdr :=
  { magic := BOOT_MAGIC, kernel_size := 1, kernel_addr := 0,
    ramdisk_size := 1, ramdisk_addr := 0, second_size := 0,
    second_addr := 0, tags_addr := 0, page_size := 16,
    header_version := 0, os_version := 0, name := List.replicate 16 0,
    cmdline := List.replicate 512 0, id := List.replicate 32 0,
    extra_cmdline := List.replicate 1024 0, recovery_dtbo_size := 0,
    recovery_dtbo_offset := 0, header_size := 0, dtb_size := 0,
    dtb_addr := 0 }

set_option maxRecDepth 10000 in
/-- C1 counterexample: the claim as stated fails.  smallPageHdr is a valid
version-0 header (it satisfies the model invariants and every validator
check, with container size 48 = its computed total), yet encoding an image
from it with no payload replacement and decoding the produced stream does
not yield the header: the written image is only 48 bytes (the total size
the 16-byte pages give), so decoding fails with TruncatedHeader. -/
theorem C1_roundtrip_counterexample :
    ValidHeader smallPageHdr ∧
    check_boot_img_header smallPageHdr 48 = .ok ∧
    read_header_bytes (write_bootimg []
      ⟨smallPageHdr, 48, false, ⟨none, none, none, none, none⟩⟩)
      = .error .TruncatedHeader := by
  refine ⟨by constructor <;> decide, by decide, ?_⟩
  have hlen : (write_bootimg []
      ⟨smallPageHdr, 48, false, ⟨none, none, none, none, none⟩⟩).length
      = 48 := by
    unfold write_bootimg
    rw [length_truncateTo]
  unfold read_header_bytes
  rw [if_pos (by rw [hlen]; norm_num [hdr_v0_size])]

set_option maxRecDepth 10000 in
/-- C10: there is a header that passes every validator check although its
page size is smaller than the header struct size of its version; for such
a header the header-padding length of write_bootimg, page_size minus
header size in unsigned 32-bit arithmetic, wraps around to a value close
to 2^32, and the validator (the only guard run before the write in the
update path) accepts the header. -/
theorem C10_header_padding_wraps :
    check_boot_img_header smallPageHdr 4096 = .ok ∧
    smallPageHdr.page_size < boot_img_header_size smallPageHdr ∧
    headerPadLen smallPageHdr = 4294965680 ∧
    2 ^ 31 < headerPadLen smallPageHdr := by
  refine ⟨by decide, by decide, by decide, by decide⟩

/-! ## C4: what encode writes -/

theorem pagesSpec_mul_of_mod_ne (x P : Nat) (hP : 0 < P) (hm : x % P ≠ 0) :
    pagesSpec x P * P = x + (P - x % P) := by
  have h1 : P * (x / P) + x % P = x := Nat.div_add_mod x P
  have hlt : x % P < P := Nat.mod_lt _ hP
  have hexp : (x / P + 1) * P = x / P * P + P := by ring
  have hc : x / P * P = P * (x / P) := Nat.mul_comm _ _
  have hdiv : (x + P - 1) / P = x / P + 1 := by
    have hx : x + P - 1 = (x % P - 1) + (x / P + 1) * P := by
      rw [hexp, hc]; omega
    rw [hx, Nat.add_mul_div_right _ _ hP, Nat.div_eq_of_lt (by omega)]
    omega
  unfold pagesSpec
  rw [hdiv, hexp, hc]
  omega

/-- The writes of the encoder as the amended claim describes them: the
header at offset 0 padded with P - header_size zero bytes, each present
region at the mathematical page-aligned offset of section 4.2 with
P - (size mod P) zero bytes of padding (a full extra page when the size is
a page multiple), absent regions contributing nothing. -/
def encodeOpsSpec (img : ImgState) : List WriteOp :=
  let P := img.header.page_size
  let ks := img.header.kernel_size
  let rs := img.header.ramdisk_size
  let ss := img.header.second_size
  let dos := img.header.recovery_dtbo_size
  let ds := img.header.dtb_size
  [⟨0, encodeHeaderBytes img.header
      ++ List.replicate (P - boot_img_header_size img.header) 0⟩]
  ++ (match img.payloads.kernel with
      | some d => [⟨1 * P, d ++ List.replicate (P - ks % P) 0⟩]
      | none => [])
  ++ (match img.payloads.ramdisk with
      | some d => [⟨(1 + pagesSpec ks P) * P,
          d ++ List.replicate (P - rs % P) 0⟩]
      | none => [])
  ++ (match img.payloads.second with
      | some d =>
        if ss ≠ 0 then
          [⟨(1 + pagesSpec ks P + pagesSpec rs P) * P,
            d ++ List.replicate (P - ss % P) 0⟩]
        else []
      | none => [])
  ++ (match img.payloads.dtbo with
      | some d =>
        if dos ≠ 0 then
          [⟨(1 + pagesSpec ks P + pagesSpec rs P + pagesSpec ss P) * P,
            d ++ List.replicate (P - dos % P) 0⟩]
        else []
      | none => [])
  ++ (match img.payloads.dtb with
      | some d =>
        if ds ≠ 0 then
          [⟨(1 + pagesSpec ks P + pagesSpec rs P + pagesSpec ss P
              + pagesSpec dos P) * P,
            d ++ List.replicate (P - ds % P) 0⟩]
        else []
      | none => [])

set_option maxHeartbeats 1000000 in
/-- C4 (amended): for every valid header whose page size is at least its
header struct size and whose layout arithmetic does not overflow 32 bits,
and for every payload set and target stream: the encoder writes the header
at offset 0 padded with zero bytes to exactly one page; writes each
present region at its computed page-aligned offset with a zero padding of
P - (size mod P) bytes, which ends exactly at the next page boundary when
the size is not a multiple of P and adds one full extra page when it is
(the stated claim's padding-to-exactly-the-boundary fails in that case,
see the counterexample); an absent region contributes no write; and after
writing, the stream is truncated to exactly the container's target size. -/
theorem C4_encode_layout (h : BootImgHdr) (isize : Nat) (blk : Bool)
    (pls : PayloadSet)
    (hv : ValidHeader h)
    (hps : boot_img_header_size h ≤ h.page_size)
    (htot : (1 + pagesSpec h.kernel_size h.page_size
        + pagesSpec h.ramdisk_size h.page_size
        + pagesSpec h.second_size h.page_size
        + pagesSpec h.recovery_dtbo_size h.page_size
        + pagesSpec h.dtb_size h.page_size)
        * h.page_size < 2 ^ 32) :
    write_bootimg_ops ⟨h, isize, blk, pls⟩
      = encodeOpsSpec ⟨h, isize, blk, pls⟩ ∧
    ((write_bootimg_ops ⟨h, isize, blk, pls⟩).headD ⟨0, []⟩).data.length
      = h.page_size ∧
    (∀ s0, (write_bootimg s0 ⟨h, isize, blk, pls⟩).length = isize) ∧
    (∀ off x (d : List Nat), d.length = x → x % h.page_size ≠ 0 →
      off + (write_bootimg_part h.page_size off x d).data.length
        = off + pagesSpec x h.page_size * h.page_size) ∧
    (∀ off x (d : List Nat), d.length = x → x % h.page_size = 0 →
      off + (write_bootimg_part h.page_size off x d).data.length
        = off + x + h.page_size) := by
  obtain ⟨pk, pr, psd, pdo, pdb⟩ := pls
  have hP : 0 < h.page_size := Nat.pos_of_ne_zero hv.page_size_pos
  have hPlt : h.page_size < 2 ^ 32 := hv.page_size_lt
  obtain ⟨ek, er, es, eo, ed2, etot⟩ := layout_offsets_math h.page_size
    h.kernel_size h.ramdisk_size h.second_size h.recovery_dtbo_size
    h.dtb_size hP htot
  have hH2 : boot_img_header_size h ≤ hdr_v2_size := boot_img_header_size_le h
  have hHlt : boot_img_header_size h < 2 ^ 32 := by
    have hlt : hdr_v2_size < 2 ^ 32 := by norm_num [hdr_v2_size]
    omega
  have hpad : headerPadLen h = h.page_size - boot_img_header_size h := by
    unfold headerPadLen u32sub
    rw [Nat.mod_eq_of_lt hPlt, Nat.mod_eq_of_lt hHlt]
    omega
  have henclen : (encodeHeaderBytes h).length = boot_img_header_size h :=
    encodeHeaderBytes_length h hv
  refine ⟨?_, ?_, ?_, ?_, ?_⟩
  · unfold write_bootimg_ops encodeOpsSpec write_bootimg_part
    dsimp only
    simp only [hpad, ek, er, es, eo, ed2]
  · unfold write_bootimg_ops
    dsimp only
    simp only [List.cons_append, List.headD_cons, List.length_append,
      henclen, hpad, List.length_replicate]
    omega
  · intro s0
    unfold write_bootimg
    rw [length_truncateTo]
  · intro off x d hd hm
    unfold write_bootimg_part
    dsimp only
    rw [List.length_append, List.length_replicate, hd,
      pagesSpec_mul_of_mod_ne x h.page_size hP hm]
  · intro off x d hd hm
    unfold write_bootimg_part
    dsimp only
    rw [List.length_append, List.length_replicate, hd, hm]
    omega

set_option maxRecDepth 10000 in
/-- C4 witness: the trace equality at a concrete image with a one-byte
kernel and a one-byte ramdisk payload, hypotheses discharged by
evaluation. -/
theorem C4_encode_layout_witness :
    write_bootimg_ops
        ⟨exampleV0Hdr, 6144, false, ⟨some [7], some [8], none, none, none⟩⟩
      = encodeOpsSpec
        ⟨exampleV0Hdr, 6144, false, ⟨some [7], some [8], none, none, none⟩⟩ :=
  (C4_encode_layout exampleV0Hdr 6144 false
    ⟨some [7], some [8], none, none, none⟩
    (by constructor <;> decide) (by decide) (by decide)).1

/-- Valid header whose kernel size (2048) is an exact multiple of the page
size (2048). -/
def pageMultipleHdr : BootImgHdr :=
  { magic := BOOT_MAGIC, kernel_size := 2048, kernel_addr := 0,
    ramdisk_size := 1, ramdisk_addr := 0, second_size := 0,
    second_addr := 0, tags_addr := 0, page_size := 2048,
    header_version := 0, os_version := 0, name := List.replicate 16 0,
    cmdline := List.replicate 512 0, id := List.replicate 32 0,
    extra_cmdline := List.replicate 1024 0, recovery_dtbo_size := 0,
    recovery_dtbo_offset := 0, header_size := 0, dtb_size := 0,
    dtb_addr := 0 }

/-- Image state carrying a kernel payload whose size is one full page. -/
def pageMultipleImg : ImgState :=
  ⟨pageMultipleHdr, 8192, false,
   ⟨some (List.replicate 2048 7), none, none, none, none⟩⟩

set_option maxRecDepth 10000 in
theorem write_bootimg_ops_pageMultiple : write_bootimg_ops pageMultipleImg
      = [⟨0, encodeHeaderBytes pageMultipleHdr
            ++ List.replicate (headerPadLen pageMultipleHdr) 0⟩,
         write_bootimg_part 2048 (koffsetC 2048) 2048
           (List.replicate 2048 7)] := by
    unfold write_bootimg_ops
    dsimp only [pageMultipleImg, pageMultipleHdr]
    rfl


set_option maxRecDepth 10000 in
/-- C4 counterexample: the claim as stated fails for a region whose size
is already a multiple of the page size.  With page size 2048 and a
2048-byte kernel payload, the kernel write starts at offset 2048 and emits
4096 bytes (2048 data plus a full extra page of padding), ending at 6144
instead of the next page boundary 2048 + pages(2048)*2048 = 4096. -/
theorem C4_encode_counterexample :
    ((write_bootimg_ops pageMultipleImg).getD 1 ⟨0, []⟩).off = 2048 ∧
    ((write_bootimg_ops pageMultipleImg).getD 1 ⟨0, []⟩).data.length
      = 4096 ∧
    (2048 : Nat) + 4096 ≠ 2048 + pagesSpec 2048 2048 * 2048 := by
  rw [write_bootimg_ops_pageMultiple]
  refine ⟨?_, ?_, by decide⟩
  · show (write_bootimg_part 2048 (koffsetC 2048) 2048
      (List.replicate 2048 7)).off = 2048
    unfold write_bootimg_part koffsetC
    norm_num
  · show (write_bootimg_part 2048 (koffsetC 2048) 2048
      (List.replicate 2048 7)).data.length = 4096
    unfold write_bootimg_part
    show (List.replicate 2048 7 ++
      List.replicate (2048 - 2048 % 2048) 0).length = 4096
    rw [List.length_append, List.length_replicate, List.length_replicate]

/-! ## C6: version promotion -/

/-- Translation of update_header_version (src/abootimg.c:537-552): compute
the version the payload sizes require and bump the header to it, never
lowering; on a bump, header_size is recomputed from the new version. -/
def update_header_version (h : BootImgHdr) : BootImgHdr :=
  let new_version := if 0 < h.dtb_size then 2
    else if 0 < h.recovery_dtbo_size then 1 else 0
  if h.header_version < new_version then
    { h with header_version := new_version,
             header_size := headerSizeOfVersion new_version }
  else h

/-- The version justified by the payloads, as the claim words it: at least
1 when recovery_dtbo_size is non-zero, at least 2 when dtb_size is
non-zero, i.e. the highest of these lower bounds. -/
def justifiedVersion (h : BootImgHdr) : Nat :=
  if 0 < h.dtb_size then 2
  else if 0 < h.recovery_dtbo_size then 1 else 0

/-- C6: promoteVersion (update_header_version) sets header_version to the
highest version justified by the payloads (at least 1 when
recovery_dtbo_size is non-zero, at least 2 when dtb_size is non-zero),
never lowers an already higher version, sets header_size to the structure
size of the new version whenever the version increases, is idempotent, and
never decreases header_version. -/
theorem C6_promote_version (h : BootImgHdr) :
    (update_header_version h).header_version
      = max h.header_version (justifiedVersion h) ∧
    (h.header_version < justifiedVersion h →
      (update_header_version h).header_size
        = headerSizeOfVersion (update_header_version h).header_version) ∧
    update_header_version (update_header_version h)
      = update_header_version h ∧
    h.header_version ≤ (update_header_version h).header_version := by
  unfold update_header_version justifiedVersion
  by_cases hd : 0 < h.dtb_size
  · by_cases hv2 : h.header_version < 2
    · simp [hd, hv2] <;> omega
    · simp [hd, hv2] <;> omega
  · by_cases ho : 0 < h.recovery_dtbo_size
    · by_cases hv1 : h.header_version < 1
      · simp [hd, ho, hv1] <;> omega
      · simp [hd, ho, hv1] <;> omega
    · simp [hd, ho] <;> omega

/-- Header whose recovery dtbo size is non-zero while its version is 0. -/
def promoteHdr : BootImgHdr :=
  { exampleV0Hdr with recovery_dtbo_size := 5 }

set_option maxRecDepth 10000 in
/-- C6 witness: at a concrete version-0 header with a non-zero recovery
dtbo size the promotion bumps the version and synchronizes header_size. -/
theorem C6_promote_version_witness :
    (update_header_version promoteHdr).header_size
      = headerSizeOfVersion (update_header_version promoteHdr).header_version
    :=
  (C6_promote_version promoteHdr).2.1 (by decide)


/-! ## C9: truncated header streams -/

/-- C9: decode reads the version-0-sized prefix first to learn
header_version (the value at byte offset 40), then the version-dependent
remainder from the same position, and fails with TruncatedHeader whenever
the stream holds fewer bytes than the prefix or than the
version-dependent struct size requires; every successfully decoded header
carries the version found in the prefix, fits the stream, and has all
unread trailing fields up to the version-2 layout zero-filled. -/
theorem C9_decode_truncation (bs : List Nat) :
    ((bs.length < hdr_v0_size ∨
        bs.length < headerSizeOfVersion (rdU32At bs 40)) →
      read_header_bytes bs = .error .TruncatedHeader) ∧
    (∀ h, read_header_bytes bs = .ok h →
      h.header_version = rdU32At bs 40 ∧
      headerSizeOfVersion h.header_version ≤ bs.length ∧
      (h.header_version = 0 →
        h.recovery_dtbo_size = 0 ∧ h.recovery_dtbo_offset = 0 ∧
        h.header_size = 0 ∧ h.dtb_size = 0 ∧ h.dtb_addr = 0) ∧
      (h.header_version = 1 → h.dtb_size = 0 ∧ h.dtb_addr = 0)) := by
  have hge : hdr_v0_size ≤ headerSizeOfVersion (rdU32At bs 40) := by
    unfold headerSizeOfVersion hdr_v0_size hdr_v1_size hdr_v2_size
    split_ifs <;> omega
  by_cases h1 : bs.length < hdr_v0_size
  · refine ⟨fun hc => ?_, fun h heq => ?_⟩
    · unfold read_header_bytes
      rw [if_pos h1]
    · unfold read_header_bytes at heq
      rw [if_pos h1] at heq
      simp at heq
  · by_cases h2 : bs.length < headerSizeOfVersion (rdU32At bs 40)
    · refine ⟨fun hc => ?_, fun h heq => ?_⟩
      · unfold read_header_bytes
        rw [if_neg h1]
        dsimp only
        rw [if_pos h2]
      · unfold read_header_bytes at heq
        rw [if_neg h1] at heq
        dsimp only at heq
        rw [if_pos h2] at heq
        simp at heq
    · refine ⟨fun hc => ?_, fun h heq => ?_⟩
      · exfalso
        rcases hc with hc | hc
        · exact h1 hc
        · exact h2 hc
      · unfold read_header_bytes at heq
        rw [if_neg h1] at heq
        dsimp only at heq
        rw [if_neg h2] at heq
        simp only [Except.ok.injEq] at heq
        subst heq
        refine ⟨rfl, ?_, ?_, ?_⟩
        · exact Nat.le_of_not_lt h2
        · intro hv0
          dsimp only at hv0
          simp [hv0, headerSizeOfVersion, hdr_v0_size, hdr_v1_size,
            hdr_v2_size]
        · intro hv1
          dsimp only at hv1
          simp [hv1, headerSizeOfVersion, hdr_v0_size, hdr_v1_size,
            hdr_v2_size]

/-- C9 witness: the claim's scenario, a 20-byte stream, fails with
TruncatedHeader. -/
theorem C9_decode_truncation_witness :
    read_header_bytes (List.replicate 20 0) = .error .TruncatedHeader :=
  (C9_decode_truncation (List.replicate 20 0)).1 (Or.inl (by decide))

/-! ## C7 and C8: the config patcher -/

/-! ## The config patcher (update_header_entry, src/abootimg.c:463-535)

Config lines are byte lists (C strings are NUL-terminated byte arrays, so
a line never contains a 0 byte).  Spaces are 32, tabs 9, newlines 10, the
equals sign 61. -/

/-- The space and tab characters skipped by the strspn calls. -/
def isSpTab (c : Nat) : Bool := c == 32 || c == 9

/-- Bytes of the key cmdline. -/
def keyCmdline : List Nat := [99, 109, 100, 108, 105, 110, 101]

/-- Bytes of the key name. -/
def keyName : List Nat := [110, 97, 109, 101]

/-- Bytes of the key bootsize. -/
def keyBootsize : List Nat := [98, 111, 111, 116, 115, 105, 122, 101]

/-- Bytes of the key pagesize. -/
def keyPagesize : List Nat := [112, 97, 103, 101, 115, 105, 122, 101]

/-- Bytes of the key kerneladdr. -/
def keyKerneladdr : List Nat := [107, 101, 114, 110, 101, 108, 97, 100, 100, 114]

/-- Bytes of the key ramdiskaddr. -/
def keyRamdiskaddr : List Nat :=
  [114, 97, 109, 100, 105, 115, 107, 97, 100, 100, 114]

/-- Bytes of the key secondaddr. -/
def keySecondaddr : List Nat := [115, 101, 99, 111, 110, 100, 97, 100, 100, 114]

/-- Bytes of the key tagsaddr. -/
def keyTagsaddr : List Nat := [116, 97, 103, 115, 97, 100, 100, 114]

/-- Bytes of the key recoverydtobooffs. -/
def keyRecoverydtobooffs : List Nat :=
  [114, 101, 99, 111, 118, 101, 114, 121, 100, 116, 111, 98, 111, 111, 102,
   102, 115]

/-- Bytes of the key dtbaddr. -/
def keyDtbaddr : List Nat := [100, 116, 98, 97, 100, 100, 114]

/-- Value of one hexadecimal digit byte. -/
def hexDigitVal (c : Nat) : Option Nat :=
  if 48 ≤ c ∧ c ≤ 57 then some (c - 48)
  else if 97 ≤ c ∧ c ≤ 102 then some (c - 87)
  else if 65 ≤ c ∧ c ≤ 70 then some (c - 55)
  else none

/-- Accumulate leading digits below the base, stopping at the first
non-digit. -/
def digitsVal (base : Nat) : List Nat → Nat → Nat
  | [], acc => acc
  | c :: r, acc =>
    match hexDigitVal c with
    | some v => if v < base then digitsVal base r (acc * base + v) else acc
    | none => acc

/-- Modelled from the spec: the source parses values with the libc
function strtoull in base 0, which is not part of the repository; the spec
(section 4.4) states that numeric values are parsed as unsigned integers
in base 0, accepting decimal and 0x-prefixed hexadecimal.  The result has
unsigned long long width. -/
def strtoullM (cs : List Nat) : Nat :=
  (match cs with
   | 48 :: 120 :: r => digitsVal 16 r 0
   | 48 :: 88 :: r => digitsVal 16 r 0
   | _ => digitsVal 10 cs 0) % 2 ^ 64

/-- Failure conditions of the config patcher: in the source each is a
distinct abort_printf message of update_header_entry. -/
inductive ConfigErr where
  | BadConfigEntry (token : List Nat)
  | CmdlineTooLong (len : Nat)
  | ImmutableBlockSize
deriving Repr, DecidableEq

/-- Translation of update_header_entry (src/abootimg.c:463-535): truncate
the line at the first newline; skip spaces and tabs; the token runs to the
first space, equals sign or tab; after more spaces and tabs an equals sign
must follow (else bad entry, printing from the token to the end of the
line); the value is the rest of the line with leading spaces and tabs
skipped.  The token dispatches: cmdline by exact comparison (strcmp), all
other keys by prefix comparison (strncmp with the key's length).  Numeric
fields store the strtoull value truncated to their width. -/
def update_header_entry (st : ImgState) (cmd : List Nat) :
    Except ConfigErr ImgState :=
  let line := cmd.takeWhile (fun c => !(c == 10))
  let r1 := line.dropWhile isSpTab
  let token := r1.takeWhile (fun c => !(c == 32 || c == 61 || c == 9))
  let afterTok := (r1.drop token.length).dropWhile isSpTab
  match afterTok with
  | 61 :: tail =>
    let value := tail.dropWhile isSpTab
    let valuenum := strtoullM value
    if token = keyCmdline then
      if BOOT_ARGS_SIZE ≤ value.length then
        .error (.CmdlineTooLong value.length)
      else
        .ok { st with header := { st.header with
          cmdline := value
            ++ List.replicate (BOOT_ARGS_SIZE - value.length) 0 } }
    else if token.take 4 = keyName then
      .ok { st with header := { st.header with
        name := value.take 15
          ++ List.replicate (16 - (value.take 15).length) 0 } }
    else if token.take 8 = keyBootsize then
      if st.is_blkdev ∧ st.size ≠ valuenum then .error .ImmutableBlockSize
      else .ok { st with size := valuenum % 2 ^ 32 }
    else if token.take 8 = keyPagesize then
      .ok { st with header := { st.header with
        page_size := valuenum % 2 ^ 32 } }
    else if token.take 10 = keyKerneladdr then
      .ok { st with header := { st.header with
        kernel_addr := valuenum % 2 ^ 32 } }
    else if token.take 11 = keyRamdiskaddr then
      .ok { st with header := { st.header with
        ramdisk_addr := valuenum % 2 ^ 32 } }
    else if token.take 10 = keySecondaddr then
      .ok { st with header := { st.header with
        second_addr := valuenum % 2 ^ 32 } }
    else if token.take 8 = keyTagsaddr then
      .ok { st with header := { st.header with
        tags_addr := valuenum % 2 ^ 32 } }
    else if token.take 17 = keyRecoverydtobooffs then
      .ok { st with header := { st.header with
        recovery_dtbo_offset := valuenum } }
    else if token.take 7 = keyDtbaddr then
      .ok { st with header := { st.header with dtb_addr := valuenum } }
    else .error (.BadConfigEntry token)
  | _ => .error (.BadConfigEntry r1)

/-- The bytes of the config line cmdline = s. -/
def cmdlineLine (s : List Nat) : List Nat :=
  [99, 109, 100, 108, 105, 110, 101, 32, 61, 32] ++ s

/-- A key token is recognized when it is exactly cmdline, or carries one
of the other nine keys as a prefix (the source compares them with strncmp
bounded by the key length). -/
def recognizedKey (t : List Nat) : Prop :=
  t = keyCmdline ∨ t.take 4 = keyName ∨ t.take 8 = keyBootsize ∨
  t.take 8 = keyPagesize ∨ t.take 10 = keyKerneladdr ∨
  t.take 11 = keyRamdiskaddr ∨ t.take 10 = keySecondaddr ∨
  t.take 8 = keyTagsaddr ∨ t.take 17 = keyRecoverydtobooffs ∨
  t.take 7 = keyDtbaddr


/-- Decidable equality of Except results, for concrete evaluation. -/
instance exceptDecEq {ε α : Type} [DecidableEq ε] [DecidableEq α] :
    DecidableEq (Except ε α)
  | .error a, .error b =>
    if h : a = b then .isTrue (by rw [h])
    else .isFalse (fun hc => h (by cases hc; rfl))
  | .error _, .ok _ => .isFalse (fun hc => Except.noConfusion hc)
  | .ok _, .error _ => .isFalse (fun hc => Except.noConfusion hc)
  | .ok a, .ok b =>
    if h : a = b then .isTrue (by rw [h])
    else .isFalse (fun hc => h (by cases hc; rfl))

/-- Image state used by the concrete config scenarios. -/
def cfgSt : ImgState :=
  ⟨exampleV0Hdr, 6144, false, ⟨none, none, none, none, none⟩⟩

set_option maxHeartbeats 1000000 in
/-- C7 (amended): applying the config line cmdline = s (for s free of NUL
bytes, as every C string is) fails with CmdlineTooLong if and only if
len(v)+1 exceeds the cmdline capacity, where v is s truncated at its first
newline and stripped of leading spaces and tabs -- not s itself, because
update_header_entry cuts the line at the first newline and skips
whitespace after the equals sign; otherwise the stored cmdline equals v
exactly, NUL-terminated with the remainder of the field zeroed, and no
other field changes. -/
theorem C7_cmdline (st : ImgState) (s : List Nat) (hnn : 0 ∉ s) :
    (update_header_entry st (cmdlineLine s)
        = .error (.CmdlineTooLong
            ((s.takeWhile (fun c => !(c == 10))).dropWhile isSpTab).length)
      ↔ BOOT_ARGS_SIZE
          < ((s.takeWhile (fun c => !(c == 10))).dropWhile isSpTab).length
            + 1) ∧
    (((s.takeWhile (fun c => !(c == 10))).dropWhile isSpTab).length + 1
        ≤ BOOT_ARGS_SIZE →
      update_header_entry st (cmdlineLine s)
        = .ok { st with header := { st.header with
            cmdline := ((s.takeWhile (fun c => !(c == 10))).dropWhile isSpTab)
              ++ List.replicate (BOOT_ARGS_SIZE
                - ((s.takeWhile (fun c => !(c == 10))).dropWhile
                    isSpTab).length) 0 } }) := by
  have hred : update_header_entry st (cmdlineLine s)
      = (if BOOT_ARGS_SIZE
            ≤ ((s.takeWhile (fun c => !(c == 10))).dropWhile isSpTab).length
         then .error (.CmdlineTooLong
            ((s.takeWhile (fun c => !(c == 10))).dropWhile isSpTab).length)
         else .ok { st with header := { st.header with
            cmdline := ((s.takeWhile (fun c => !(c == 10))).dropWhile isSpTab)
              ++ List.replicate (BOOT_ARGS_SIZE
                - ((s.takeWhile (fun c => !(c == 10))).dropWhile
                    isSpTab).length) 0 } }) := by
    unfold update_header_entry cmdlineLine
    simp [List.takeWhile, List.dropWhile, isSpTab, keyCmdline]
  constructor
  · rw [hred]
    by_cases hl : BOOT_ARGS_SIZE
        ≤ ((s.takeWhile (fun c => !(c == 10))).dropWhile isSpTab).length
    · rw [if_pos hl]
      simp
      omega
    · rw [if_neg hl]
      simp
      omega
  · intro hle
    rw [hred, if_neg (by omega)]

set_option maxHeartbeats 1000000 in
/-- C8 (amended): with the line decomposed as the source parses it
(truncate at the first newline into r1 after leading whitespace, token up
to the first space, equals sign or tab, then whitespace and the expected
equals sign), the patcher fails with BadConfigEntry -- naming the
remaining line when the equals sign is missing, the token otherwise -- if
and only if the equals sign is missing or the token is not recognized; a
token is recognized when it is exactly cmdline or has one of the other
nine keys as a prefix (strncmp bounded by the key length), NOT when it is
exactly one of the ten keys as the claim states: a token such as namext is
outside the claim's key list yet accepted (see the counterexample).  On a
BadConfigEntry no state is produced, a hard stop. -/
theorem C8_bad_config (st : ImgState) (cmd r1 token afterTok : List Nat)
    (hr1 : r1 = (cmd.takeWhile (fun c => !(c == 10))).dropWhile isSpTab)
    (htok : token
      = r1.takeWhile (fun c => !(c == 32 || c == 61 || c == 9)))
    (haft : afterTok = (r1.drop token.length).dropWhile isSpTab) :
    ((∀ tail : List Nat, afterTok ≠ 61 :: tail) →
      update_header_entry st cmd = .error (.BadConfigEntry r1)) ∧
    (∀ tail : List Nat, afterTok = 61 :: tail →
      (¬ recognizedKey token →
        update_header_entry st cmd = .error (.BadConfigEntry token)) ∧
      (recognizedKey token →
        ∀ tok : List Nat,
          update_header_entry st cmd ≠ .error (.BadConfigEntry tok))) := by
  constructor
  · intro hne
    unfold update_header_entry
    dsimp only
    rw [← hr1, ← htok, ← haft]
    split
    · exfalso
      apply hne
      rfl
    · rfl
  · intro tail htail
    unfold update_header_entry
    dsimp only
    rw [← hr1, ← htok, ← haft, htail]
    dsimp only
    constructor
    · intro hnr
      rw [recognizedKey] at hnr
      push_neg at hnr
      obtain ⟨n1, n2, n3, n4, n5, n6, n7, n8, n9, n10⟩ := hnr
      rw [if_neg n1, if_neg n2, if_neg n3, if_neg n4, if_neg n5, if_neg n6,
        if_neg n7, if_neg n8, if_neg n9, if_neg n10]
    · intro hr tok
      by_cases h1 : token = keyCmdline
      · rw [if_pos h1]
        by_cases h2 : BOOT_ARGS_SIZE ≤ (tail.dropWhile isSpTab).length
        · rw [if_pos h2]
          intro hc
          injection hc with hc2
          exact ConfigErr.noConfusion hc2
        · rw [if_neg h2]
          exact fun hc => Except.noConfusion hc
      · rw [if_neg h1]
        by_cases h3 : token.take 4 = keyName
        · rw [if_pos h3]
          exact fun hc => Except.noConfusion hc
        · rw [if_neg h3]
          by_cases h4 : token.take 8 = keyBootsize
          · rw [if_pos h4]
            by_cases h5 : st.is_blkdev
                ∧ st.size ≠ strtoullM (tail.dropWhile isSpTab)
            · rw [if_pos h5]
              intro hc
              injection hc with hc2
              exact ConfigErr.noConfusion hc2
            · rw [if_neg h5]
              exact fun hc => Except.noConfusion hc
          · rw [if_neg h4]
            by_cases h6 : token.take 8 = keyPagesize
            · rw [if_pos h6]
              exact fun hc => Except.noConfusion hc
            · rw [if_neg h6]
              by_cases h7 : token.take 10 = keyKerneladdr
              · rw [if_pos h7]
                exact fun hc => Except.noConfusion hc
              · rw [if_neg h7]
                by_cases h8 : token.take 11 = keyRamdiskaddr
                · rw [if_pos h8]
                  exact fun hc => Except.noConfusion hc
                · rw [if_neg h8]
                  by_cases h9 : token.take 10 = keySecondaddr
                  · rw [if_pos h9]
                    exact fun hc => Except.noConfusion hc
                  · rw [if_neg h9]
                    by_cases h10 : token.take 8 = keyTagsaddr
                    · rw [if_pos h10]
                      exact fun hc => Except.noConfusion hc
                    · rw [if_neg h10]
                      by_cases h11 : token.take 17 = keyRecoverydtobooffs
                      · rw [if_pos h11]
                        exact fun hc => Except.noConfusion hc
                      · rw [if_neg h11]
                        by_cases h12 : token.take 7 = keyDtbaddr
                        · rw [if_pos h12]
                          exact fun hc => Except.noConfusion hc
                        · rw [if_neg h12]
                          exfalso
                          rcases hr with h | h | h | h | h | h | h | h | h | h
                            <;> contradiction

set_option maxRecDepth 100000 in
/-- C7 witness: cmdline = ab stores the two bytes NUL-padded. -/
theorem C7_cmdline_witness :
    update_header_entry cfgSt (cmdlineLine [97, 98])
      = .ok { cfgSt with header := { cfgSt.header with
          cmdline := [97, 98] ++ List.replicate 510 0 } } := by
  have h := (C7_cmdline cfgSt [97, 98] (by decide)).2 (by decide)
  exact h

set_option maxRecDepth 100000 in
/-- C7 counterexample: the claim as stated fails at s = space-a: its
length plus one (3) is within capacity, so the claim requires the stored
cmdline to equal s exactly, but the source skips the leading space and
stores only the byte a. -/
theorem C7_cmdline_counterexample :
    update_header_entry cfgSt (cmdlineLine [32, 97])
      = .ok { cfgSt with header := { cfgSt.header with
          cmdline := [97] ++ List.replicate 511 0 } } ∧
    ([97] ++ List.replicate 511 0 : List Nat)
      ≠ [32, 97] ++ List.replicate 510 0 ∧
    ¬ (BOOT_ARGS_SIZE < ([32, 97] : List Nat).length + 1) := by
  refine ⟨by decide, by decide, by decide⟩

/-- C8 witness: the line foo (no equals sign) is a hard BadConfigEntry
stop naming the offending text. -/
theorem C8_bad_config_witness :
    update_header_entry cfgSt [102, 111, 111]
      = .error (.BadConfigEntry [102, 111, 111]) :=
  (C8_bad_config cfgSt [102, 111, 111] [102, 111, 111] [102, 111, 111] []
    (by decide) (by decide) (by decide)).1
    (fun t ht => List.noConfusion ht)

set_option maxRecDepth 100000 in
/-- C8 counterexample: the claim as stated fails at the line
namext = q: the token namext is not one of the ten recognized keys, yet
the patcher succeeds (strncmp matches the name prefix) and sets the boot
name to q. -/
theorem C8_bad_config_counterexample :
    (([110, 97, 109, 101, 120, 116] : List Nat) ≠ keyCmdline ∧
     ([110, 97, 109, 101, 120, 116] : List Nat) ≠ keyName ∧
     ([110, 97, 109, 101, 120, 116] : List Nat) ≠ keyBootsize ∧
     ([110, 97, 109, 101, 120, 116] : List Nat) ≠ keyPagesize ∧
     ([110, 97, 109, 101, 120, 116] : List Nat) ≠ keyKerneladdr ∧
     ([110, 97, 109, 101, 120, 116] : List Nat) ≠ keyRamdiskaddr ∧
     ([110, 97, 109, 101, 120, 116] : List Nat) ≠ keySecondaddr ∧
     ([110, 97, 109, 101, 120, 116] : List Nat) ≠ keyTagsaddr ∧
     ([110, 97, 109, 101, 120, 116] : List Nat) ≠ keyRecoverydtobooffs ∧
     ([110, 97, 109, 101, 120, 116] : List Nat) ≠ keyDtbaddr) ∧
    update_header_entry cfgSt
        [110, 97, 109, 101, 120, 116, 32, 61, 32, 113]
      = .ok { cfgSt with header := { cfgSt.header with
          name := [113] ++ List.replicate 15 0 } } := by
  refine ⟨by decide, by decide⟩


/-! ## Payload assembly (update_images, src/abootimg.c:645-739) -/

/-- Failure conditions of update_images: null page size, a short read of
an original region (the source aborts on a failed fread), or an updated
image exceeding the container. -/
inductive UpdateErr where
  | PageSizeZero
  | ShortRead
  | TooBig
deriving Repr, DecidableEq

/-- Translation of read_original_image_part (src/abootimg.c:626-643):
seek to offset and fread size bytes; a read of zero bytes or past the end
of the stream makes the source abort. -/
def read_original_image_part (orig : List Nat) (size offset : Nat) :
    Except UpdateErr (List Nat) :=
  if 0 < size ∧ offset + size ≤ orig.length then
    .ok ((orig.drop offset).take size)
  else .error .ShortRead

/-- One region of the assembly loop in update_images: an explicit
replacement is adopted in full with its byte count stored into the
region's uint32 size field (read_new_image_part, src/abootimg.c:599-623,
reads st_size bytes into a fresh buffer); otherwise, when the reread flag
computed by the caller holds, the region is re-read from the original
stream; otherwise the buffer stays NULL and the size field keeps its
value. -/
def pick_region (repl : Option (List Nat)) (reread : Bool)
    (orig : List Nat) (oldSize offset : Nat) :
    Except UpdateErr (Option (List Nat) × Nat) :=
  match repl with
  | some d => .ok (some (d.take (d.length % 2 ^ 32)), d.length % 2 ^ 32)
  | none =>
    if reread then
      match read_original_image_part orig oldSize offset with
      | .ok r => .ok (some r, oldSize)
      | .error e => .error e
    else .ok (none, oldSize)

/-- Translation of update_images (src/abootimg.c:645-739): abort on a
null page size; compute the original region offsets from the sizes before
any replacement; walk the regions in the fixed order, replacing or
re-reading (ramdisk whenever an earlier region was replaced, second stage,
recovery dtbo and dtb only when additionally their size field is
non-zero); finally recompute the total size from the updated size fields,
adopt it as the container size when none was known, and fail when it
exceeds the known container size. -/
def update_images (img : ImgState) (orig : List Nat)
    (kR rR sR oR dR : Option (List Nat)) : Except UpdateErr ImgState :=
  let psize := img.header.page_size
  let ksize := img.header.kernel_size
  let rsize := img.header.ramdisk_size
  let ssize := img.header.second_size
  let dosize := img.header.recovery_dtbo_size
  let dsize := img.header.dtb_size
  if psize = 0 then .error .PageSizeZero else
  let roffset := roffsetC psize ksize
  let soffset := soffsetC psize ksize rsize
  let dooffset := dooffsetC psize ksize rsize ssize
  let doffset := doffsetC psize ksize rsize ssize dosize
  match pick_region kR false orig ksize 0 with
  | .error e => .error e
  | .ok (kernel, ksize1) =>
    let oc1 := kR.isSome
    match pick_region rR oc1 orig rsize roffset with
    | .error e => .error e
    | .ok (ramdisk, rsize1) =>
      let oc2 := oc1 || rR.isSome
      match pick_region sR (oc2 && decide (ssize ≠ 0)) orig ssize soffset with
      | .error e => .error e
      | .ok (second, ssize1) =>
        let oc3 := oc2 || sR.isSome
        match pick_region oR (oc3 && decide (dosize ≠ 0)) orig dosize
            dooffset with
        | .error e => .error e
        | .ok (dtbo, dosize1) =>
          let oc4 := oc3 || oR.isSome
          match pick_region dR (oc4 && decide (dsize ≠ 0)) orig dsize
              doffset with
          | .error e => .error e
          | .ok (dtb, dsize1) =>
            let total :=
              totalSizeOf psize ksize1 rsize1 ssize1 dosize1 dsize1
            let newHeader :=
              { img.header with
                kernel_size := ksize1
                ramdisk_size := rsize1
                second_size := ssize1
                recovery_dtbo_size := dosize1
                dtb_size := dsize1 }
            if img.size = 0 then
              .ok ⟨newHeader, total, img.is_blkdev,
                ⟨kernel, ramdisk, second, dtbo, dtb⟩⟩
            else if img.size < total then .error .TooBig
            else
              .ok ⟨newHeader, img.size, img.is_blkdev,
                ⟨kernel, ramdisk, second, dtbo, dtb⟩⟩

/-- One region's outcome as the claim describes it: an explicit
replacement is adopted in full and its length becomes the size field;
otherwise, if some earlier region was replaced and the region is still
present (non-zero size field), its bytes are re-read from the original
stream at the original offset, the size field unchanged; a region with no
replacement and either no earlier replacement or zero size contributes no
buffer and keeps its size field (in particular, zero size with no
replacement stays absent). -/
def regionSpec (orig : List Nat) (repl : Option (List Nat))
    (earlier : Bool) (oldSize offset : Nat) : Option (List Nat) × Nat :=
  match repl with
  | some d => (some d, d.length)
  | none =>
    if earlier ∧ oldSize ≠ 0 then
      (some ((orig.drop offset).take oldSize), oldSize)
    else (none, oldSize)

theorem pick_region_spec (repl : Option (List Nat)) (r earlier : Bool)
    (orig : List Nat) (sz off : Nat) (p : Option (List Nat) × Nat)
    (hlen : ∀ d, repl = some d → d.length < 2 ^ 32)
    (hr : r = true ↔ (earlier = true ∧ sz ≠ 0))
    (hok : pick_region repl r orig sz off = .ok p) :
    p = regionSpec orig repl earlier sz off := by
  cases repl with
  | some d =>
    have hd := hlen d rfl
    unfold pick_region at hok
    simp only [Except.ok.injEq] at hok
    unfold regionSpec
    rw [← hok, Nat.mod_eq_of_lt hd, List.take_of_length_le (le_refl _)]
  | none =>
    unfold pick_region at hok
    unfold regionSpec
    cases r with
    | true =>
      obtain ⟨he, hsz⟩ := hr.mp rfl
      rw [if_pos ⟨he, hsz⟩]
      rw [if_pos rfl] at hok
      unfold read_original_image_part at hok
      by_cases hc : 0 < sz ∧ off + sz ≤ orig.length
      · rw [if_pos hc] at hok
        simp only [Except.ok.injEq] at hok
        rw [← hok]
      · rw [if_neg hc] at hok
        simp at hok
    | false =>
      have hne : ¬ (earlier = true ∧ sz ≠ 0) := fun hc => by
        have := hr.mpr hc
        simp at this
      rw [if_neg hne]
      rw [if_neg (by simp)] at hok
      simp only [Except.ok.injEq] at hok
      rw [← hok]


set_option maxHeartbeats 2000000 in
/-- C5: during payload assembly, in the fixed region order, an explicit
replacement is adopted in full and its byte count becomes the region's
size field; otherwise the region is re-read from the original stream at
its original offset exactly when some earlier region was replaced and the
region is present (for the ramdisk the code tests only the earlier
replacement, so its non-zero size is a hypothesis here, guaranteed by the
validator); a region with zero size and no replacement stays absent. -/
theorem C5_assemble (img : ImgState) (orig : List Nat)
    (kR rR sR oR dR : Option (List Nat)) (out : ImgState)
    (hrs : img.header.ramdisk_size ≠ 0)
    (hk : ∀ d, kR = some d → d.length < 2 ^ 32)
    (hr : ∀ d, rR = some d → d.length < 2 ^ 32)
    (hs : ∀ d, sR = some d → d.length < 2 ^ 32)
    (ho : ∀ d, oR = some d → d.length < 2 ^ 32)
    (hd : ∀ d, dR = some d → d.length < 2 ^ 32)
    (hok : update_images img orig kR rR sR oR dR = .ok out) :
    (out.payloads.kernel, out.header.kernel_size)
      = regionSpec orig kR false img.header.kernel_size 0 ∧
    (out.payloads.ramdisk, out.header.ramdisk_size)
      = regionSpec orig rR kR.isSome img.header.ramdisk_size
          (roffsetC img.header.page_size img.header.kernel_size) ∧
    (out.payloads.second, out.header.second_size)
      = regionSpec orig sR (kR.isSome || rR.isSome) img.header.second_size
          (soffsetC img.header.page_size img.header.kernel_size
            img.header.ramdisk_size) ∧
    (out.payloads.dtbo, out.header.recovery_dtbo_size)
      = regionSpec orig oR (kR.isSome || rR.isSome || sR.isSome)
          img.header.recovery_dtbo_size
          (dooffsetC img.header.page_size img.header.kernel_size
            img.header.ramdisk_size img.header.second_size) ∧
    (out.payloads.dtb, out.header.dtb_size)
      = regionSpec orig dR
          (kR.isSome || rR.isSome || sR.isSome || oR.isSome)
          img.header.dtb_size
          (doffsetC img.header.page_size img.header.kernel_size
            img.header.ramdisk_size img.header.second_size
            img.header.recovery_dtbo_size) := by
  unfold update_images at hok
  by_cases hp0 : img.header.page_size = 0
  · rw [if_pos hp0] at hok
    simp at hok
  · rw [if_neg hp0] at hok
    dsimp only at hok
    cases hk1 : pick_region kR false orig img.header.kernel_size 0 with
    | error e =>
      rw [hk1] at hok
      simp at hok
    | ok pk =>
      rw [hk1] at hok
      obtain ⟨kern, ks1⟩ := pk
      dsimp only at hok
      cases hk2 : pick_region rR kR.isSome orig img.header.ramdisk_size
          (roffsetC img.header.page_size img.header.kernel_size) with
      | error e =>
        rw [hk2] at hok
        simp at hok
      | ok pr2 =>
        rw [hk2] at hok
        obtain ⟨ramd, rs1⟩ := pr2
        dsimp only at hok
        cases hk3 : pick_region sR
            ((kR.isSome || rR.isSome)
              && decide (img.header.second_size ≠ 0)) orig
            img.header.second_size
            (soffsetC img.header.page_size img.header.kernel_size
              img.header.ramdisk_size) with
        | error e =>
          rw [hk3] at hok
          simp at hok
        | ok ps2 =>
          rw [hk3] at hok
          obtain ⟨sec, ss1⟩ := ps2
          dsimp only at hok
          cases hk4 : pick_region oR
              ((kR.isSome || rR.isSome || sR.isSome)
                && decide (img.header.recovery_dtbo_size ≠ 0)) orig
              img.header.recovery_dtbo_size
              (dooffsetC img.header.page_size img.header.kernel_size
                img.header.ramdisk_size img.header.second_size) with
          | error e =>
            rw [hk4] at hok
            simp at hok
          | ok po2 =>
            rw [hk4] at hok
            obtain ⟨dtbo2, dos1⟩ := po2
            dsimp only at hok
            cases hk5 : pick_region dR
                ((kR.isSome || rR.isSome || sR.isSome || oR.isSome)
                  && decide (img.header.dtb_size ≠ 0)) orig
                img.header.dtb_size
                (doffsetC img.header.page_size img.header.kernel_size
                  img.header.ramdisk_size img.header.second_size
                  img.header.recovery_dtbo_size) with
            | error e =>
              rw [hk5] at hok
              simp at hok
            | ok pd2 =>
              rw [hk5] at hok
              obtain ⟨dtbv, ds1⟩ := pd2
              dsimp only at hok
              split_ifs at hok with hz htb
              · simp only [Except.ok.injEq] at hok
                subst hok
                refine ⟨?_, ?_, ?_, ?_, ?_⟩
                · exact pick_region_spec kR false false orig
                    img.header.kernel_size 0 (kern, ks1) hk (by simp) hk1
                · exact pick_region_spec rR kR.isSome kR.isSome orig
                    img.header.ramdisk_size _ (ramd, rs1) hr
                    ⟨fun h => ⟨h, hrs⟩, fun h => h.1⟩ hk2
                · exact pick_region_spec sR _ (kR.isSome || rR.isSome) orig
                    img.header.second_size _ (sec, ss1) hs (by simp) hk3
                · exact pick_region_spec oR _
                    (kR.isSome || rR.isSome || sR.isSome) orig
                    img.header.recovery_dtbo_size _ (dtbo2, dos1) ho
                    (by simp) hk4
                · exact pick_region_spec dR _
                    (kR.isSome || rR.isSome || sR.isSome || oR.isSome) orig
                    img.header.dtb_size _ (dtbv, ds1) hd (by simp) hk5
              · simp only [Except.ok.injEq] at hok
                subst hok
                refine ⟨?_, ?_, ?_, ?_, ?_⟩
                · exact pick_region_spec kR false false orig
                    img.header.kernel_size 0 (kern, ks1) hk (by simp) hk1
                · exact pick_region_spec rR kR.isSome kR.isSome orig
                    img.header.ramdisk_size _ (ramd, rs1) hr
                    ⟨fun h => ⟨h, hrs⟩, fun h => h.1⟩ hk2
                · exact pick_region_spec sR _ (kR.isSome || rR.isSome) orig
                    img.header.second_size _ (sec, ss1) hs (by simp) hk3
                · exact pick_region_spec oR _
                    (kR.isSome || rR.isSome || sR.isSome) orig
                    img.header.recovery_dtbo_size _ (dtbo2, dos1) ho
                    (by simp) hk4
                · exact pick_region_spec dR _
                    (kR.isSome || rR.isSome || sR.isSome || oR.isSome) orig
                    img.header.dtb_size _ (dtbv, ds1) hd (by simp) hk5


/-- Concrete image for the C5 witness: page size 4, a 4-byte kernel and a
4-byte ramdisk, container size 12, no other payloads. -/
def updHdr : BootImgHdr :=
  { magic := BOOT_MAGIC, kernel_size := 4, kernel_addr := 0,
    ramdisk_size := 4, ramdisk_addr := 0, second_size := 0,
    second_addr := 0, tags_addr := 0, page_size := 4,
    header_version := 0, os_version := 0, name := List.replicate 16 0,
    cmdline := List.replicate 512 0, id := List.replicate 32 0,
    extra_cmdline := List.replicate 1024 0, recovery_dtbo_size := 0,
    recovery_dtbo_offset := 0, header_size := 0, dtb_size := 0,
    dtb_addr := 0 }

set_option maxRecDepth 100000 in
/-- C5 witness: replacing the kernel by a single byte adopts it in full
with size 1, the ramdisk is re-read from the original stream at its
original offset 8, and the absent regions stay absent. -/
theorem C5_assemble_witness :
    ((some [9] : Option (List Nat)), 1)
      = regionSpec (List.replicate 12 3) (some [9]) false 4 0 ∧
    ((some [3, 3, 3, 3] : Option (List Nat)), 4)
      = regionSpec (List.replicate 12 3) none true 4 8 ∧
    ((none : Option (List Nat)), 0)
      = regionSpec (List.replicate 12 3) none true 0 12 ∧
    ((none : Option (List Nat)), 0)
      = regionSpec (List.replicate 12 3) none true 0 12 ∧
    ((none : Option (List Nat)), 0)
      = regionSpec (List.replicate 12 3) none true 0 12 :=
  C5_assemble ⟨updHdr, 12, false, ⟨none, none, none, none, none⟩⟩
    (List.replicate 12 3) (some [9]) none none none none
    ⟨{ updHdr with kernel_size := 1 }, 12, false,
      ⟨some [9], some [3, 3, 3, 3], none, none, none⟩⟩
    (by decide)
    (fun d hd => by cases hd; decide)
    (fun d hd => Option.noConfusion hd)
    (fun d hd => Option.noConfusion hd)
    (fun d hd => Option.noConfusion hd)
    (fun d hd => Option.noConfusion hd)
    (by decide)

end Abootimg
